import Mathlib

set_option maxHeartbeats 1000000

/-! Verification of the concurrent parameter-optimization driver
(`src/parameter_optimizer/src/optimization.rs`).

The numeric computations of the fitness-scoring algorithm (`get_fitness`) are
idealised over the real numbers: the `f32`/`f64` arithmetic of the source is
replaced by exact arithmetic on `ℝ`, and sampled times are represented as
rationals (the source walks time from `0` in steps of `0.1`).  The worker
protocol (ask/tell, trial list, best-fitness tracking) is embedded over `ℚ`
with the external effects (process spawning, file system, the TPE optimizer
internals) supplied by explicit environment records. -/

/-! ## Vectors and GSL statistics -/

/-- Three-dimensional position vector: `glam::Vec3A` idealised over the reals. -/
abbrev Vec3 : Type := ℝ × ℝ × ℝ

/-- Componentwise vector subtraction (`Vec3A` subtraction, `now_pos - last_pos`). -/
def vsub (a b : Vec3) : Vec3 := (a.1 - b.1, a.2.1 - b.2.1, a.2.2 - b.2.2)

/-- Division of a vector by a scalar (`pos_delta / time_delta`). -/
noncomputable def vdiv (a : Vec3) (c : ℝ) : Vec3 := (a.1 / c, a.2.1 / c, a.2.2 / c)

/-- Euclidean length of a vector (`Vec3A::length`). -/
noncomputable def vlen (a : Vec3) : ℝ := Real.sqrt (a.1 ^ 2 + a.2.1 ^ 2 + a.2.2 ^ 2)

/-- Arithmetic mean of a list of samples, `rgsl::statistics::mean` (GSL computes
the mean by a running recurrence, which in exact arithmetic is `sum / length`
and returns `0` on an empty list since the recurrence never runs). -/
noncomputable def gslMean (l : List ℝ) : ℝ := l.sum / l.length

/-- Mean absolute deviation about the mean, `rgsl::statistics::absdev`. -/
noncomputable def gslAbsdev (l : List ℝ) : ℝ :=
  (l.map (fun x => |x - gslMean l|)).sum / l.length

/-! ## The simulation trace -/

/-- Modelled from the spec: the trace-parser collaborator (module
`position_parser`, whose source file is not under `src/`) returns, per §6 of
the spec, "a structured per-entity timeline plus the declared simulation
duration".  `uavs` is the collection of entity identifiers, `simulation_length`
the declared duration and `pos_at_time t u` the position of entity `u` at time
`t` when one is known. -/
structure SimulationData where
  uavs : List ℕ
  simulation_length : ℚ
  pos_at_time : ℚ → ℕ → Option Vec3

/-- Sampled time of step `k`: the source starts at `time = 0.0` and advances by
`time_step = 0.1` each iteration. -/
def tAt (k : ℕ) : ℚ := (k : ℚ) / 10

/-- Number of iterations of the `while time <= data.simulation_length` loop:
steps `k` with `k / 10 ≤ simulation_length`. -/
def nSteps (d : SimulationData) : ℕ := (⌊(10 : ℚ) * d.simulation_length⌋ + 1).toNat

/-- The list of sampled times of the walk. -/
def simTimes (d : SimulationData) : List ℚ := (List.range (nSteps d)).map tAt

/-- The threshold `mad_threshold = 30.0` of the stability metric. -/
noncomputable def madThreshold : ℝ := 30

/-! ## The time walk of `get_fitness` -/

/-- Mutable state carried across loop iterations of `get_fitness`: the
`last_poses` map, the accumulated `(time, mean distance)` and
`(time, mean velocity)` samples and the streak start
`under_mad_threshold_time`. -/
structure WalkState where
  lastPoses : ℕ → Option (Vec3 × ℚ)
  allDistances : List (ℚ × ℝ)
  allVelocities : List (ℚ × ℝ)
  underMad : Option ℚ

/-- Initial walk state: empty `last_poses`, empty sample lists, no streak. -/
def walkInit : WalkState :=
  { lastPoses := fun _ => none, allDistances := [], allVelocities := [], underMad := none }

/-- Body of the `for uav in &uavs` loop of `get_fitness`: for an entity with a
known position, push its instantaneous velocity when a previous position is
recorded, update `last_poses`, and push its distance to the central node unless
it is the central node itself.  The accumulator is
`(distances, velocities, last_poses)`. -/
noncomputable def processUav (d : SimulationData) (central : ℕ) (centralPos : Vec3) (t : ℚ)
    (acc : List ℝ × List ℝ × (ℕ → Option (Vec3 × ℚ))) (uav : ℕ) :
    List ℝ × List ℝ × (ℕ → Option (Vec3 × ℚ)) :=
  match d.pos_at_time t uav with
  | none => acc
  | some nowPos =>
      let vels : List ℝ :=
        match acc.2.2 uav with
        | none => acc.2.1
        | some lastPT =>
            acc.2.1 ++ [vlen (vdiv (vsub nowPos lastPT.1) ((t : ℝ) - ((lastPT.2 : ℚ) : ℝ)))]
      let lp : ℕ → Option (Vec3 × ℚ) := fun u => if u = uav then some (nowPos, t) else acc.2.2 u
      let dists : List ℝ :=
        if uav ≠ central then acc.1 ++ [vlen (vsub nowPos centralPos)] else acc.1
      (dists, vels, lp)

/-- One step of the streak state machine for `under_mad_threshold_time`: a held
streak is broken when the metric rises to the threshold or above, and a new
streak starts when no streak is held and the metric is below the threshold. -/
noncomputable def streakStep (s : Option ℚ) (t : ℚ) (madPercent : ℝ) : Option ℚ :=
  match s with
  | some u => if madPercent ≥ madThreshold then none else some u
  | none => if madPercent < madThreshold then some t else none

/-- The streak state machine run over a list of `(time, metric)` pairs. -/
noncomputable def streakFold (s : Option ℚ) (l : List (ℚ × ℝ)) : Option ℚ :=
  l.foldl (fun s x => streakStep s x.1 x.2) s

/-- One iteration of the `while time <= data.simulation_length` loop of
`get_fitness`.  The central node position is unwrapped (`none` models the
panic); then every entity is processed, the per-step statistics are computed
and the streak state is updated. -/
noncomputable def stepWalk (d : SimulationData) (central : ℕ) (s : WalkState) (t : ℚ) :
    Option WalkState :=
  match d.pos_at_time t central with
  | none => none
  | some centralPos =>
      let folded := d.uavs.foldl (processUav d central centralPos t) ([], [], s.lastPoses)
      let distancesMean := gslMean folded.1
      let madOfDistance := gslAbsdev folded.1
      let meanVelocity := gslMean folded.2.1
      let madPercent := madOfDistance * distancesMean * 100
      some { lastPoses := folded.2.2
             allDistances := s.allDistances ++ [(t, distancesMean)]
             allVelocities := s.allVelocities ++ [(t, meanVelocity)]
             underMad := streakStep s.underMad t madPercent }

/-- The whole walk: the loop of `get_fitness` run over a list of sampled times,
threading the walk state; `none` models a panic at some step. -/
noncomputable def walkFrom (d : SimulationData) (central : ℕ) (s : WalkState)
    (ts : List ℚ) : Option WalkState :=
  ts.foldlM (stepWalk d central) s

/-- The walk state after the first `n` sampled steps. -/
noncomputable def walkN (d : SimulationData) (central : ℕ) (n : ℕ) : Option WalkState :=
  walkFrom d central walkInit ((List.range n).map tAt)

/-- The three final cost components printed by `get_fitness`:
`desired_distance_cost = 200 * |3 - average_distance|`,
`stable_time_cost = 1 * stable_time` with
`stable_time = under_mad_threshold_time.unwrap_or(360.0)`, and
`velocity_cost = 250 * mean_velocity`.  `none` models a panic: either
`uavs.iter().min().unwrap()` on an empty entity list, or the unwrap of the
central node position at some sampled time. -/
noncomputable def getFitnessParts (d : SimulationData) : Option (ℝ × ℝ × ℝ) :=
  match d.uavs.min? with
  | none => none
  | some central =>
      match walkN d central (nSteps d) with
      | none => none
      | some s =>
          let stableTime : ℝ := ((s.underMad.getD 360 : ℚ) : ℝ)
          let meanVelocity : ℝ := (s.allVelocities.map Prod.snd).sum / (s.allVelocities.length : ℝ)
          let averageDistance : ℝ := (s.allDistances.map Prod.snd).sum / (s.allDistances.length : ℝ)
          some (200 * |3 - averageDistance|, 1 * stableTime, 250 * meanVelocity)

/-- The fitness returned by `get_fitness`: the sum of the three cost
components; `none` models a panic. -/
noncomputable def get_fitness (d : SimulationData) : Option ℝ :=
  (getFitnessParts d).map (fun p => p.1 + p.2.1 + p.2.2)

/-! ## Spec-side scoring quantities

These definitions follow the words of the spec (§4.3) and are compared against
the source walk above: the per-timestep distance list ranges over every entity
other than the reference entity with a known position; the per-timestep speed
list ranges over every entity with both a current and a previous known
position; the averages are means over timesteps of the per-timestep means. -/

/-- Whether entity `u` has a known position at sampled step `k`. -/
def obsAt (d : SimulationData) (u : ℕ) (k : ℕ) : Bool := (d.pos_at_time (tAt k) u).isSome

/-- The most recent sampled step before step `k` at which entity `u` had a
known position (the step recorded in `last_poses` when step `k` is reached). -/
def prevObs (d : SimulationData) (u : ℕ) (k : ℕ) : Option ℕ :=
  ((List.range k).filter (obsAt d u)).max?

/-- Per-timestep distances: for every entity with a known position at step `k`
other than the reference entity, its distance to the reference position. -/
noncomputable def specDistancesAt (d : SimulationData) (central : ℕ) (k : ℕ) : List ℝ :=
  match d.pos_at_time (tAt k) central with
  | none => []
  | some centralPos =>
      (d.uavs.filter (fun u => u ≠ central)).filterMap
        (fun u => (d.pos_at_time (tAt k) u).map (fun p => vlen (vsub p centralPos)))

/-- The stability metric at step `k`: mean absolute deviation of the distances
times their mean times 100. -/
noncomputable def metricAt (d : SimulationData) (central : ℕ) (k : ℕ) : ℝ :=
  gslAbsdev (specDistancesAt d central k) * gslMean (specDistancesAt d central k) * 100

/-- The `(time, stability metric)` sequence of the whole walk. -/
noncomputable def timedMetrics (d : SimulationData) (central : ℕ) : List (ℚ × ℝ) :=
  (List.range (nSteps d)).map (fun k => (tAt k, metricAt d central k))

/-- Per-timestep speeds: for every entity with a known position at step `k` and
a previous known position, the length of the position delta divided by the time
delta since its last observed position. -/
noncomputable def specSpeedsAt (d : SimulationData) (k : ℕ) : List ℝ :=
  d.uavs.filterMap (fun u =>
    (d.pos_at_time (tAt k) u).bind (fun p =>
      (prevObs d u k).bind (fun j =>
        (d.pos_at_time (tAt j) u).map (fun q =>
          vlen (vdiv (vsub p q) (((tAt k : ℚ) : ℝ) - ((tAt j : ℚ) : ℝ)))))))

/-- Spec-side average distance: the mean over timesteps of the per-timestep
mean distances. -/
noncomputable def specAvgDistance (d : SimulationData) (central : ℕ) : ℝ :=
  gslMean ((List.range (nSteps d)).map (fun k => gslMean (specDistancesAt d central k)))

/-- Spec-side average speed: the mean over timesteps of the per-timestep mean
speeds. -/
noncomputable def specAvgSpeed (d : SimulationData) : ℝ :=
  gslMean ((List.range (nSteps d)).map (fun k => gslMean (specSpeedsAt d k)))

/-- Spec-side stabilization time: the final streak state over the metric
sequence, with the source fallback `360.0` when no streak is held at the end of
the walk. -/
noncomputable def specStabilizationTime (d : SimulationData) (central : ℕ) : ℝ :=
  (((streakFold none (timedMetrics d central)).getD 360 : ℚ) : ℝ)

/-! ## The worker protocol

The driver loop (`run`, `run_thread`, `run_analysis`, `run_binary`) is embedded
over `ℚ`.  The external effects are supplied by environment records: the spawn
result of the simulator process, the outcome of reading and parsing the trace
artifact, the success of each TPE `tell` call, and the success of the artifact
copy and of the temp-file deletion.  At this layer the scalar fitness computed
by `get_fitness` is an opaque rational supplied by the environment (the scoring
algorithm itself is verified separately above); `none` models a panic inside
`get_fitness`. -/

/-- Result of `Command::new(bin_path)...spawn()?.wait()?`: either one of the
two fallible calls returned an error (`spawnErr`), or the child ran to
completion with a zero (`exited true`) or non-zero (`exited false`) status. -/
inductive SpawnResult where
  | spawnErr : SpawnResult
  | exited : Bool → SpawnResult
deriving DecidableEq

/-- The source `run_binary`, faithfully including its final conditional whose
two branches both return `Ok(())`: a spawn or wait error propagates via `?`,
while the exit status of the child is inspected and then ignored. -/
def run_binary (r : SpawnResult) : Except Unit Unit :=
  match r with
  | .spawnErr => .error ()
  | .exited true => .ok ()
  | .exited false => .ok ()

/-- Panic sites of the analysis path of a worker iteration. -/
inductive PanicSite where
  | fitnessPanic : PanicSite
  | unwrapPanic : PanicSite
  | tellPanic : PanicSite
  | copyPanic : PanicSite
deriving DecidableEq

/-- Control outcome of `run_analysis`: normal return, an error returned to the
caller (logged there as "Error while doing analysis"), or a panic that unwinds
the worker thread. -/
inductive Outcome where
  | ok : Outcome
  | errored : Outcome
  | panicked : PanicSite → Outcome
deriving DecidableEq

/-- Environment of one `run_analysis` call. -/
structure AnalysisEnv where
  parseOk : Bool
  fitness : Option ℚ
  tellOk : String → Bool
  copyOk : Bool
  removeOk : Bool

/-- Effects of one `run_analysis` call: its control outcome, the `tell` calls
issued (name, asked value, fitness), the Trial appended to `results` if any,
the new `BEST_FITNESS` value, the warnings logged and whether the artifact was
copied to the persistent location. -/
structure AnalysisResult where
  outcome : Outcome
  tells : List (String × ℚ × ℚ)
  appended : Option (List (String × ℚ) × ℚ)
  best : ℚ
  warnings : List String
  copied : Bool
deriving DecidableEq

/-- The `for param in state.params.iter_mut()` tell loop: each parameter name
looks up its asked value in `param_map` (the source unwraps the lookup) and
tells the optimizer, whose `Err` is unwrapped.  Returns the tells issued before
the first panic, if one occurs. -/
def tellAll (env : AnalysisEnv) (param_map : List (String × ℚ)) (fitness : ℚ) :
    List String → List (String × ℚ × ℚ) × Option PanicSite
  | [] => ([], none)
  | n :: rest =>
      match param_map.lookup n with
      | none => ([], some .unwrapPanic)
      | some v =>
          if env.tellOk n then
            let r := tellAll env param_map fitness rest
            ((n, v, fitness) :: r.1, r.2)
          else ([], some .tellPanic)

/-- The source `run_analysis`: read and parse the artifact (any error is
returned to the caller via `?`), compute the fitness (a panic inside
`get_fitness` unwinds), then under the state lock tell every parameter and
append the Trial, then compare against `BEST_FITNESS` and on improvement store
the new best and copy the artifact (the copy result is unwrapped), and finally
delete the temp artifact, logging a warning on failure. -/
def run_analysis (param_map : List (String × ℚ)) (params : List String) (best : ℚ)
    (env : AnalysisEnv) : AnalysisResult :=
  if env.parseOk = false then
    { outcome := .errored, tells := [], appended := none, best := best,
      warnings := [], copied := false }
  else
    match env.fitness with
    | none =>
        { outcome := .panicked .fitnessPanic, tells := [], appended := none, best := best,
          warnings := [], copied := false }
    | some fitness =>
        let told := tellAll env param_map fitness params
        match told.2 with
        | some site =>
            { outcome := .panicked site, tells := told.1, appended := none, best := best,
              warnings := [], copied := false }
        | none =>
            let appended := some (param_map, fitness)
            let removeWarnings : List String :=
              if env.removeOk then [] else ["failed to delete temp positions file"]
            if fitness < best then
              if env.copyOk then
                { outcome := .ok, tells := told.1, appended := appended, best := fitness,
                  warnings := removeWarnings, copied := true }
              else
                { outcome := .panicked .copyPanic, tells := told.1, appended := appended,
                  best := fitness, warnings := [], copied := false }
            else
              { outcome := .ok, tells := told.1, appended := appended, best := best,
                warnings := removeWarnings, copied := false }

/-- Shared optimization state: the fixed parameter names (the TPE models
themselves are opaque external state) and the append-only trial list. -/
structure StateImpl where
  params : List String
  results : List (List (String × ℚ) × ℚ)

/-- Events of the ask/tell protocol, used to state lock-section properties. -/
inductive Event where
  | askEv : String → ℚ → Event
  | tellEv : String → ℚ → ℚ → Event
  | appendEv : List (String × ℚ) → ℚ → Event
deriving DecidableEq

/-- Environment of one worker iteration: the values the TPE optimizers return
from `ask` this iteration, the spawn result of the simulator run, and the
analysis environment. -/
structure IterEnv where
  asked : String → ℚ
  spawn : SpawnResult
  analysis : AnalysisEnv

/-- One iteration of the `while RUNNING` loop of `run_thread`: under the state
lock ask every parameter and record the assignment in `param_map`; run the
simulator; on `Ok` run the analysis (which tells, appends and updates the best
under its own lock acquisition), on `Err` log and delete the artifact.
Returns the new state, the new best fitness, the list of lock sections (each
inner list is the event content of one lock acquisition) and the appended
Trial, if any. -/
def runIteration (st : StateImpl) (best : ℚ) (env : IterEnv) :
    StateImpl × ℚ × List (List Event) × Option (List (String × ℚ) × ℚ) :=
  let param_map := st.params.map (fun n => (n, env.asked n))
  let askSec := st.params.map (fun n => Event.askEv n (env.asked n))
  match run_binary env.spawn with
  | .error _ => (st, best, [askSec], none)
  | .ok _ =>
      let ar := run_analysis param_map st.params best env.analysis
      let reachedLock := env.analysis.parseOk && env.analysis.fitness.isSome
      let lockSecs : List (List Event) :=
        if reachedLock then
          [ar.tells.map (fun x => Event.tellEv x.1 x.2.1 x.2.2) ++
            (match ar.appended with
             | some tr => [Event.appendEv tr.1 tr.2]
             | none => [])]
        else []
      ({ st with results := st.results ++ ar.appended.toList }, ar.best,
        [askSec] ++ lockSecs, ar.appended)

/-- A sequence of worker iterations applied to the shared state.  The state
lock serializes every tell-all/append section, so the contents of the trial
list after any concurrent run coincide with a sequential application of the
per-iteration updates in lock-acquisition order; the per-iteration environments
carry whatever values the interleaved asks produced. -/
def runIters (envs : List IterEnv) (st : StateImpl) (best : ℚ) : StateImpl × ℚ :=
  match envs with
  | [] => (st, best)
  | e :: rest =>
      let r := runIteration st best e
      runIters rest r.1 r.2.1

/-- Whether a worker iteration records a Trial: the simulator invocation
returned `Ok` (which, in the source, includes a non-zero exit status), the
artifact was read and parsed, `get_fitness` returned, and every `tell` was
accepted. -/
def iterSucceeds (ps : List String) (e : IterEnv) : Bool :=
  (match e.spawn with | .spawnErr => false | .exited _ => true) &&
    e.analysis.parseOk && e.analysis.fitness.isSome && ps.all (fun n => e.analysis.tellOk n)

/-! ## Expected walk-state components

Named descriptions of the walk state after `n` steps, used to state the
correspondence between the source walk and the spec-side quantities. -/

/-- The `last_poses` map after the entity loop at time `t` has run over `us`
starting from `lp`: every entity of `us` with a known position at `t` now maps
to that position and time. -/
def updLp (d : SimulationData) (t : ℚ) (us : List ℕ) (lp : ℕ → Option (Vec3 × ℚ)) :
    ℕ → Option (Vec3 × ℚ) :=
  fun u =>
    if u ∈ us then
      match d.pos_at_time t u with
      | some p => some (p, t)
      | none => lp u
    else lp u

/-- The distances pushed by the entity loop at time `t` over `us`. -/
noncomputable def distPart (d : SimulationData) (central : ℕ) (centralPos : Vec3) (t : ℚ)
    (us : List ℕ) : List ℝ :=
  us.filterMap (fun u => (d.pos_at_time t u).bind
    (fun p => if u ≠ central then some (vlen (vsub p centralPos)) else none))

/-- The velocities pushed by the entity loop at time `t` over `us`, reading the
previous positions from `lp`. -/
noncomputable def velPart (d : SimulationData) (t : ℚ) (lp : ℕ → Option (Vec3 × ℚ))
    (us : List ℕ) : List ℝ :=
  us.filterMap (fun u => (d.pos_at_time t u).bind
    (fun p => (lp u).map (fun q => vlen (vdiv (vsub p q.1) ((t : ℝ) - ((q.2 : ℚ) : ℝ))))))

/-- The `last_poses` map when step `n` is reached: every entity maps to its
most recent observed position and time among steps `0, …, n-1`. -/
def lpN (d : SimulationData) (n : ℕ) : ℕ → Option (Vec3 × ℚ) :=
  fun u =>
    if u ∈ d.uavs then
      (prevObs d u n).bind (fun j => (d.pos_at_time (tAt j) u).map (fun q => (q, tAt j)))
    else none

/-- The accumulated `(time, mean distance)` samples after `n` steps. -/
noncomputable def distsN (d : SimulationData) (central : ℕ) (n : ℕ) : List (ℚ × ℝ) :=
  (List.range n).map (fun k => (tAt k, gslMean (specDistancesAt d central k)))

/-- The accumulated `(time, mean velocity)` samples after `n` steps. -/
noncomputable def velsN (d : SimulationData) (n : ℕ) : List (ℚ × ℝ) :=
  (List.range n).map (fun k => (tAt k, gslMean (specSpeedsAt d k)))

/-- The `(time, metric)` pairs of the first `n` steps. -/
noncomputable def metricsN (d : SimulationData) (central : ℕ) (n : ℕ) : List (ℚ × ℝ) :=
  (List.range n).map (fun k => (tAt k, metricAt d central k))

/-- The per-entity distances of a constant-position trace, one per non-central
entity. -/
noncomputable def constDists (d : SimulationData) (central : ℕ) (P : ℕ → Vec3) : List ℝ :=
  (d.uavs.filter (fun u => u ≠ central)).map (fun u => vlen (vsub (P u) (P central)))

/-- The expected walk state when step `n` is reached, described entirely by the
spec-side quantities. -/
noncomputable def expState (d : SimulationData) (central : ℕ) (n : ℕ) : WalkState :=
  { lastPoses := lpN d n, allDistances := distsN d central n,
    allVelocities := velsN d n, underMad := streakFold none (metricsN d central n) }

/-! ## Concrete instances used by witnesses and counterexamples -/

/-- Positions of the entities of `dConst`: entity 0 at the origin, every other
entity at `(3, 0, 0)`. -/
noncomputable def pConst : ℕ → Vec3 := fun u => if u = 0 then (0, 0, 0) else (3, 0, 0)

/-- Positions of the entities of `dSpread`: entity 0 at the origin, entity 1 at
distance 1, every other entity at distance 3. -/
noncomputable def pSpread : ℕ → Vec3 :=
  fun u => if u = 0 then (0, 0, 0) else if u = 1 then (1, 0, 0) else (3, 0, 0)

/-- Constant trace with two entities at distance exactly 3 and duration 0.2. -/
noncomputable def dConst : SimulationData :=
  { uavs := [0, 1], simulation_length := 1/5,
    pos_at_time := fun _ u =>
      if u = 0 then some (0, 0, 0) else if u = 1 then some (3, 0, 0) else none }

/-- Constant trace with entities at distances 1 and 3 (stability metric 200)
and duration 0.2. -/
noncomputable def dSpread : SimulationData :=
  { uavs := [0, 1, 2], simulation_length := 1/5,
    pos_at_time := fun _ u =>
      if u = 0 then some (0, 0, 0) else if u = 1 then some (1, 0, 0)
      else if u = 2 then some (3, 0, 0) else none }

/-- Trace whose stability metric dips below 30, rises to 200 at time 0.1, and
dips below 30 again at time 0.2, the last sampled step. -/
noncomputable def dDip : SimulationData :=
  { uavs := [0, 1, 2], simulation_length := 1/5,
    pos_at_time := fun t u =>
      if u = 0 then some (0, 0, 0)
      else if u = 1 then (if t = 1/10 then some (1, 0, 0) else some (3, 0, 0))
      else if u = 2 then some (3, 0, 0) else none }

/-- Trace with no entities at all. -/
def dEmpty : SimulationData :=
  { uavs := [], simulation_length := 1, pos_at_time := fun _ _ => none }

/-- Trace whose reference entity (0) has no known position at the second
sampled step. -/
noncomputable def dMissCentral : SimulationData :=
  { uavs := [0, 1], simulation_length := 1/10,
    pos_at_time := fun t u => if t = 0 ∧ u ≤ 1 then some (0, 0, 0) else none }

/-- Trace whose reference entity is always known but whose other entity has no
known position at the second sampled step. -/
noncomputable def dSkip : SimulationData :=
  { uavs := [0, 1], simulation_length := 1/10,
    pos_at_time := fun t u =>
      if u = 0 then some (0, 0, 0)
      else if u = 1 then (if t = 0 then some (3, 0, 0) else none) else none }

/-- The shared state of the source run: parameters named a and r, no trials. -/
def stAR : StateImpl := { params := ["a", "r"], results := [] }

/-- Analysis environment in which every external step succeeds. -/
def envAnalysisOk : AnalysisEnv :=
  { parseOk := true, fitness := some 5, tellOk := fun _ => true,
    copyOk := true, removeOk := true }

/-- Analysis environment in which only the artifact copy fails. -/
def envCopyFail : AnalysisEnv :=
  { parseOk := true, fitness := some 5, tellOk := fun _ => true,
    copyOk := false, removeOk := true }

/-- Parameter assignment a = 1, r = 1. -/
def pmAR : List (String × ℚ) := [("a", 1), ("r", 1)]

/-- Iteration in which everything succeeds with fitness 5. -/
def iterOk : IterEnv := { asked := fun _ => 1, spawn := .exited true, analysis := envAnalysisOk }

/-- Iteration in which the simulator exits with a non-zero status and leaves a
parseable artifact behind. -/
def iterExitFail : IterEnv :=
  { asked := fun _ => 1, spawn := .exited false, analysis := envAnalysisOk }

/-- Iteration in which the simulator process fails to spawn. -/
def iterSpawnFail : IterEnv :=
  { asked := fun _ => 1, spawn := .spawnErr, analysis := envAnalysisOk }

/-- Iteration that succeeds with fitness 2000, worse than the initial
`BEST_FITNESS` sentinel of 1000. -/
def iterBig : IterEnv :=
  { asked := fun _ => 1, spawn := .exited true,
    analysis := { parseOk := true, fitness := some 2000, tellOk := fun _ => true,
                  copyOk := true, removeOk := true } }

/-! ## Basic lemmas -/

theorem vsub_self_zero (p : Vec3) : vsub p p = ((0 : ℝ), (0 : ℝ), (0 : ℝ)) := by
  simp [vsub]

theorem vdiv_zero (c : ℝ) : vdiv ((0 : ℝ), (0 : ℝ), (0 : ℝ)) c = ((0 : ℝ), (0 : ℝ), (0 : ℝ)) := by
  simp [vdiv]

theorem vlen_zero : vlen ((0 : ℝ), (0 : ℝ), (0 : ℝ)) = 0 := by
  simp [vlen]

theorem vlen_axis (x : ℝ) (hx : 0 ≤ x) : vlen (x, (0 : ℝ), (0 : ℝ)) = x := by
  simp only [vlen]
  rw [show x ^ 2 + 0 ^ 2 + 0 ^ 2 = x ^ 2 by ring, Real.sqrt_sq hx]

theorem gslMean_nil : gslMean [] = 0 := by
  simp [gslMean]

theorem gslMean_const (l : List ℝ) (x : ℝ) (hl : l ≠ []) (h : ∀ y ∈ l, y = x) :
    gslMean l = x := by
  have hsum : l.sum = l.length * x := by
    induction l with
    | nil => simp
    | cons a as ih =>
        have ha : a = x := h a (by simp)
        by_cases has : as = []
        · subst has; simp [ha]
        · have := ih has (fun y hy => h y (by simp [hy]))
          simp [ha, this]; ring
  have hlen : (l.length : ℝ) ≠ 0 := by
    exact_mod_cast (List.length_pos.mpr hl).ne'
  rw [gslMean, hsum, mul_comm, mul_div_assoc, div_self hlen, mul_one]

theorem gslMean_zeros (l : List ℝ) (h : ∀ y ∈ l, y = 0) : gslMean l = 0 := by
  have hsum : l.sum = 0 := List.sum_eq_zero h
  simp [gslMean, hsum]

theorem gslAbsdev_const (l : List ℝ) (x : ℝ) (h : ∀ y ∈ l, y = x) : gslAbsdev l = 0 := by
  by_cases hl : l = []
  · subst hl; simp [gslAbsdev]
  · have hm : gslMean l = x := gslMean_const l x hl h
    have hsum : (l.map (fun y => |y - gslMean l|)).sum = 0 := by
      apply List.sum_eq_zero
      intro y hy
      obtain ⟨z, hz, rfl⟩ := List.mem_map.mp hy
      rw [hm, h z hz]
      simp
    simp [gslAbsdev, hsum]

theorem streakFold_nil (s : Option ℚ) : streakFold s [] = s := rfl

theorem streakFold_append (s : Option ℚ) (l₁ l₂ : List (ℚ × ℝ)) :
    streakFold s (l₁ ++ l₂) = streakFold (streakFold s l₁) l₂ := by
  simp [streakFold, List.foldl_append]

theorem streakFold_concat (s : Option ℚ) (l : List (ℚ × ℝ)) (x : ℚ × ℝ) :
    streakFold s (l ++ [x]) = streakStep (streakFold s l) x.1 x.2 := by
  rw [streakFold_append]; rfl

theorem streakStep_break (s : Option ℚ) (t : ℚ) (m : ℝ) (hm : madThreshold ≤ m) :
    streakStep s t m = none := by
  cases s with
  | none => simp [streakStep, not_lt.mpr hm]
  | some u => simp [streakStep, ge_iff_le, hm]

theorem streakStep_start (t : ℚ) (m : ℝ) (hm : m < madThreshold) :
    streakStep none t m = some t := by
  simp [streakStep, hm]

theorem streakStep_keep (u : ℚ) (t : ℚ) (m : ℝ) (hm : m < madThreshold) :
    streakStep (some u) t m = some u := by
  simp [streakStep, ge_iff_le, not_le.mpr hm]

theorem streakFold_hold (u : ℚ) (l : List (ℚ × ℝ)) (h : ∀ x ∈ l, x.2 < madThreshold) :
    streakFold (some u) l = some u := by
  induction l with
  | nil => rfl
  | cons a as ih =>
      have ha : a.2 < madThreshold := h a (by simp)
      have : streakFold (some u) (a :: as) = streakFold (streakStep (some u) a.1 a.2) as := rfl
      rw [this, streakStep_keep u a.1 a.2 ha]
      exact ih (fun x hx => h x (by simp [hx]))

theorem streakFold_break (s : Option ℚ) (t : ℚ) (m : ℝ) (l : List (ℚ × ℝ))
    (hm : madThreshold ≤ m) :
    streakFold s ((t, m) :: l) = streakFold none l := by
  have : streakFold s ((t, m) :: l) = streakFold (streakStep s t m) l := rfl
  rw [this, streakStep_break s t m hm]

theorem streakFold_start (t : ℚ) (m : ℝ) (l : List (ℚ × ℝ)) (hm : m < madThreshold)
    (h : ∀ x ∈ l, x.2 < madThreshold) :
    streakFold none ((t, m) :: l) = some t := by
  have : streakFold none ((t, m) :: l) = streakFold (streakStep none t m) l := rfl
  rw [this, streakStep_start t m hm]
  exact streakFold_hold t l h

theorem streakFold_none_of_ge (l : List (ℚ × ℝ)) (h : ∀ x ∈ l, madThreshold ≤ x.2) :
    streakFold none l = none := by
  induction l with
  | nil => rfl
  | cons a as ih =>
      have : streakFold none (a :: as) = streakFold (streakStep none a.1 a.2) as := rfl
      rw [this, streakStep_break none a.1 a.2 (h a (by simp))]
      exact ih (fun x hx => h x (by simp [hx]))

theorem max?_concat_of_le (l : List ℕ) (a : ℕ) (h : ∀ x ∈ l, x ≤ a) :
    (l ++ [a]).max? = some a := by
  rw [List.max?_eq_some_iff']
  constructor
  · simp
  · intro b hb
    rcases List.mem_append.mp hb with hb | hb
    · exact h b hb
    · simp at hb; omega

theorem prevObs_succ_obs (d : SimulationData) (u : ℕ) (k : ℕ) (h : obsAt d u k = true) :
    prevObs d u (k + 1) = some k := by
  rw [prevObs, List.range_succ, List.filter_append]
  have : List.filter (obsAt d u) [k] = [k] := by simp [h]
  rw [this]
  apply max?_concat_of_le
  intro x hx
  have := List.mem_range.mp (List.mem_of_mem_filter hx)
  omega

theorem prevObs_succ_not_obs (d : SimulationData) (u : ℕ) (k : ℕ) (h : obsAt d u k = false) :
    prevObs d u (k + 1) = prevObs d u k := by
  rw [prevObs, prevObs, List.range_succ, List.filter_append]
  have : List.filter (obsAt d u) [k] = [] := by simp [h]
  rw [this, List.append_nil]

theorem prevObs_zero (d : SimulationData) (u : ℕ) : prevObs d u 0 = none := rfl

theorem tAt_zero : tAt 0 = 0 := by simp [tAt]

theorem tAt_lt_tAt (j k : ℕ) (h : j < k) : tAt j < tAt k := by
  have hjk : (j : ℚ) < (k : ℚ) := by exact_mod_cast h
  have h10 : (0 : ℚ) < 10 := by norm_num
  simpa [tAt] using (div_lt_div_iff_of_pos_right h10).mpr hjk

theorem nSteps_pos (d : SimulationData) (h : 0 ≤ d.simulation_length) : 0 < nSteps d := by
  rw [nSteps]
  have : (0 : ℤ) ≤ ⌊(10 : ℚ) * d.simulation_length⌋ := by
    apply Int.floor_nonneg.mpr
    positivity
  omega

/-! ## Characterization of the entity loop -/

theorem foldl_processUav_fst (d : SimulationData) (c : ℕ) (cpos : Vec3) (t : ℚ)
    (us : List ℕ) :
    ∀ (D V : List ℝ) (lp : ℕ → Option (Vec3 × ℚ)),
    (us.foldl (processUav d c cpos t) (D, V, lp)).1 = D ++ distPart d c cpos t us := by
  induction us with
  | nil => intro D V lp; simp [distPart]
  | cons a as ih =>
      intro D V lp
      rw [List.foldl_cons]
      cases hpos : d.pos_at_time t a with
      | none =>
          have hstep : processUav d c cpos t (D, V, lp) a = (D, V, lp) := by
            simp [processUav, hpos]
          rw [hstep, ih]
          simp [distPart, List.filterMap_cons, hpos]
      | some p =>
          cases hlp : lp a with
          | none =>
              have hstep : processUav d c cpos t (D, V, lp) a =
                  ((if a ≠ c then D ++ [vlen (vsub p cpos)] else D), V,
                    fun u => if u = a then some (p, t) else lp u) := by
                simp [processUav, hpos, hlp]
              rw [hstep, ih]
              by_cases hac : a = c
              · simp [distPart, List.filterMap_cons, hpos, hac]
              · simp [distPart, List.filterMap_cons, hpos, hac]
          | some q =>
              have hstep : processUav d c cpos t (D, V, lp) a =
                  ((if a ≠ c then D ++ [vlen (vsub p cpos)] else D),
                    V ++ [vlen (vdiv (vsub p q.1) ((t : ℝ) - ((q.2 : ℚ) : ℝ)))],
                    fun u => if u = a then some (p, t) else lp u) := by
                simp [processUav, hpos, hlp]
              rw [hstep, ih]
              by_cases hac : a = c
              · simp [distPart, List.filterMap_cons, hpos, hac]
              · simp [distPart, List.filterMap_cons, hpos, hac]

theorem foldl_processUav (d : SimulationData) (c : ℕ) (cpos : Vec3) (t : ℚ)
    (us : List ℕ) (hnd : us.Nodup) :
    ∀ (D V : List ℝ) (lp : ℕ → Option (Vec3 × ℚ)),
    us.foldl (processUav d c cpos t) (D, V, lp) =
      (D ++ distPart d c cpos t us, V ++ velPart d t lp us, updLp d t us lp) := by
  induction us with
  | nil =>
      intro D V lp
      refine Prod.ext (by simp [distPart]) (Prod.ext (by simp [velPart]) ?_)
      funext u
      simp [updLp]
  | cons a as ih =>
      intro D V lp
      obtain ⟨ha, has⟩ := List.nodup_cons.mp hnd
      rw [List.foldl_cons]
      cases hpos : d.pos_at_time t a with
      | none =>
          have hstep : processUav d c cpos t (D, V, lp) a = (D, V, lp) := by
            simp [processUav, hpos]
          rw [hstep, ih has]
          refine Prod.ext ?_ (Prod.ext ?_ ?_)
          · simp [distPart, List.filterMap_cons, hpos]
          · simp [velPart, List.filterMap_cons, hpos]
          · funext u
            by_cases hua : u = a
            · subst hua
              simp [updLp, hpos, ha]
            · simp [updLp, hua]
      | some p =>
          have hlp2 : ∀ u ∈ as, (fun u => if u = a then some (p, t) else lp u) u = lp u := by
            intro u hu
            have : u ≠ a := fun h => ha (h ▸ hu)
            simp [this]
          cases hlp : lp a with
          | none =>
              have hstep : processUav d c cpos t (D, V, lp) a =
                  ((if a ≠ c then D ++ [vlen (vsub p cpos)] else D), V,
                    fun u => if u = a then some (p, t) else lp u) := by
                simp [processUav, hpos, hlp]
              rw [hstep, ih has]
              refine Prod.ext ?_ (Prod.ext ?_ ?_)
              · by_cases hac : a = c
                · simp [distPart, List.filterMap_cons, hpos, hac]
                · simp [distPart, List.filterMap_cons, hpos, hac]
              · have hvel : velPart d t (fun u => if u = a then some (p, t) else lp u) as =
                    velPart d t lp as := by
                  apply List.filterMap_congr
                  intro u hu
                  rw [hlp2 u hu]
                have h1 : velPart d t lp (a :: as) = velPart d t lp as := by
                  simp [velPart, List.filterMap_cons, hpos, hlp]
                rw [hvel, h1]
              · funext u
                by_cases hua : u = a
                · subst hua
                  simp [updLp, hpos, ha]
                · simp [updLp, hua]
          | some q =>
              have hstep : processUav d c cpos t (D, V, lp) a =
                  ((if a ≠ c then D ++ [vlen (vsub p cpos)] else D),
                    V ++ [vlen (vdiv (vsub p q.1) ((t : ℝ) - ((q.2 : ℚ) : ℝ)))],
                    fun u => if u = a then some (p, t) else lp u) := by
                simp [processUav, hpos, hlp]
              rw [hstep, ih has]
              refine Prod.ext ?_ (Prod.ext ?_ ?_)
              · by_cases hac : a = c
                · simp [distPart, List.filterMap_cons, hpos, hac]
                · simp [distPart, List.filterMap_cons, hpos, hac]
              · have hvel : velPart d t (fun u => if u = a then some (p, t) else lp u) as =
                    velPart d t lp as := by
                  apply List.filterMap_congr
                  intro u hu
                  rw [hlp2 u hu]
                have h1 : velPart d t lp (a :: as) =
                    vlen (vdiv (vsub p q.1) ((t : ℝ) - ((q.2 : ℚ) : ℝ))) :: velPart d t lp as := by
                  simp [velPart, List.filterMap_cons, hpos, hlp]
                rw [hvel, h1]
                simp
              · funext u
                by_cases hua : u = a
                · subst hua
                  simp [updLp, hpos, ha]
                · simp [updLp, hua]

/-! ## Characterization of the walk -/

theorem filterMap_if_ne (f : ℕ → Option Vec3) (g : Vec3 → ℝ) (c : ℕ) :
    ∀ us : List ℕ,
    us.filterMap (fun u => (f u).bind (fun p => if u ≠ c then some (g p) else none)) =
      (us.filter (fun u => u ≠ c)).filterMap (fun u => (f u).map g) := by
  intro us
  induction us with
  | nil => rfl
  | cons a as ih =>
      by_cases hac : a = c
      · subst hac
        cases hf : f a <;> simp [List.filterMap_cons, List.filter_cons, hf] <;>
          simpa using ih
      · cases hf : f a <;> simp [List.filterMap_cons, List.filter_cons, hf, hac] <;>
          simpa using ih

theorem distPart_eq_spec (d : SimulationData) (c : ℕ) (k : ℕ) (cpos : Vec3)
    (hc : d.pos_at_time (tAt k) c = some cpos) :
    distPart d c cpos (tAt k) d.uavs = specDistancesAt d c k := by
  rw [specDistancesAt, hc, distPart]
  exact filterMap_if_ne (fun u => d.pos_at_time (tAt k) u) (fun p => vlen (vsub p cpos)) c d.uavs

theorem velPart_lpN_eq_spec (d : SimulationData) (n : ℕ) :
    velPart d (tAt n) (lpN d n) d.uavs = specSpeedsAt d n := by
  apply List.filterMap_congr
  intro u hu
  cases hp : d.pos_at_time (tAt n) u with
  | none => simp [hp]
  | some p =>
      simp only [hp, Option.some_bind]
      rw [lpN]
      simp only [hu, if_true]
      cases hj : prevObs d u n with
      | none => simp
      | some j =>
          cases hq : d.pos_at_time (tAt j) u with
          | none => simp [hq]
          | some q => simp [hq]

theorem updLp_lpN (d : SimulationData) (n : ℕ) :
    updLp d (tAt n) d.uavs (lpN d n) = lpN d (n + 1) := by
  funext u
  by_cases hu : u ∈ d.uavs
  · rw [updLp, lpN, lpN]
    simp only [hu, if_true]
    cases hp : d.pos_at_time (tAt n) u with
    | some p =>
        have hobs : obsAt d u n = true := by simp [obsAt, hp]
        rw [prevObs_succ_obs d u n hobs]
        simp [hp]
    | none =>
        have hobs : obsAt d u n = false := by
          simp [obsAt, hp]
        rw [prevObs_succ_not_obs d u n hobs]
  · simp [updLp, lpN, hu]

theorem walkN_zero (d : SimulationData) (c : ℕ) : walkN d c 0 = some walkInit := rfl

theorem walkN_succ (d : SimulationData) (c : ℕ) (n : ℕ) :
    walkN d c (n + 1) = (walkN d c n).bind (fun s => stepWalk d c s (tAt n)) := by
  rw [walkN, walkN, walkFrom, walkFrom, List.range_succ, List.map_append, List.foldlM_append]
  simp [List.foldlM_cons, List.foldlM_nil]

theorem expState_zero (d : SimulationData) (c : ℕ) : expState d c 0 = walkInit := by
  rw [expState, walkInit]
  have h1 : lpN d 0 = fun _ => none := by
    funext u
    simp [lpN, prevObs_zero]
  rw [h1]
  simp [distsN, velsN, metricsN, streakFold_nil]

theorem distsN_succ (d : SimulationData) (c : ℕ) (n : ℕ) :
    distsN d c (n + 1) = distsN d c n ++ [(tAt n, gslMean (specDistancesAt d c n))] := by
  rw [distsN, distsN, List.range_succ, List.map_append]
  rfl

theorem velsN_succ (d : SimulationData) (n : ℕ) :
    velsN d (n + 1) = velsN d n ++ [(tAt n, gslMean (specSpeedsAt d n))] := by
  rw [velsN, velsN, List.range_succ, List.map_append]
  rfl

theorem metricsN_succ (d : SimulationData) (c : ℕ) (n : ℕ) :
    metricsN d c (n + 1) = metricsN d c n ++ [(tAt n, metricAt d c n)] := by
  rw [metricsN, metricsN, List.range_succ, List.map_append]
  rfl

theorem walkN_char (d : SimulationData) (c : ℕ) (hnd : d.uavs.Nodup) :
    ∀ n : ℕ, (∀ k, k < n → obsAt d c k = true) →
    walkN d c n = some (expState d c n) := by
  intro n
  induction n with
  | zero => intro _; rw [walkN_zero, expState_zero]
  | succ n ih =>
      intro hc
      have hcn : obsAt d c n = true := hc n (Nat.lt_succ_self n)
      have hcn' : ∀ k, k < n → obsAt d c k = true :=
        fun k hk => hc k (Nat.lt_trans hk (Nat.lt_succ_self n))
      obtain ⟨cpos, hcpos⟩ : ∃ p, d.pos_at_time (tAt n) c = some p := by
        rw [obsAt, Option.isSome_iff_exists] at hcn
        exact hcn
      rw [walkN_succ, ih hcn', Option.some_bind]
      have hfold := foldl_processUav d c cpos (tAt n) d.uavs hnd [] [] (lpN d n)
      have hstep : stepWalk d c (expState d c n) (tAt n) = some
          { lastPoses := updLp d (tAt n) d.uavs (lpN d n)
            allDistances := distsN d c n ++ [(tAt n, gslMean (distPart d c cpos (tAt n) d.uavs))]
            allVelocities := velsN d n ++ [(tAt n, gslMean (velPart d (tAt n) (lpN d n) d.uavs))]
            underMad := streakStep (streakFold none (metricsN d c n)) (tAt n)
              (gslAbsdev (distPart d c cpos (tAt n) d.uavs) *
                gslMean (distPart d c cpos (tAt n) d.uavs) * 100) } := by
        simp only [stepWalk, hcpos, expState, hfold, List.nil_append]
      rw [hstep]
      refine congrArg some ?_
      rw [distPart_eq_spec d c n cpos hcpos, velPart_lpN_eq_spec d n, updLp_lpN d n,
        expState, distsN_succ, velsN_succ, metricsN_succ, streakFold_concat, metricAt]

theorem walkN_proj (d : SimulationData) (c : ℕ) :
    ∀ n : ℕ, (∀ k, k < n → obsAt d c k = true) →
    ∃ s, walkN d c n = some s ∧ s.allDistances = distsN d c n ∧
      s.underMad = streakFold none (metricsN d c n) ∧ s.allVelocities.length = n := by
  intro n
  induction n with
  | zero =>
      intro _
      exact ⟨walkInit, rfl, rfl, rfl, rfl⟩
  | succ n ih =>
      intro hc
      have hcn : obsAt d c n = true := hc n (Nat.lt_succ_self n)
      have hcn' : ∀ k, k < n → obsAt d c k = true :=
        fun k hk => hc k (Nat.lt_trans hk (Nat.lt_succ_self n))
      obtain ⟨s, hs, hsd, hsm, hsl⟩ := ih hcn'
      obtain ⟨cpos, hcpos⟩ : ∃ p, d.pos_at_time (tAt n) c = some p := by
        rw [obsAt, Option.isSome_iff_exists] at hcn
        exact hcn
      have hfst := foldl_processUav_fst d c cpos (tAt n) d.uavs [] [] s.lastPoses
      have hstep : stepWalk d c s (tAt n) = some
          { lastPoses := (d.uavs.foldl (processUav d c cpos (tAt n)) ([], [], s.lastPoses)).2.2
            allDistances := s.allDistances ++ [(tAt n, gslMean (specDistancesAt d c n))]
            allVelocities := s.allVelocities ++
              [(tAt n, gslMean (d.uavs.foldl (processUav d c cpos (tAt n))
                ([], [], s.lastPoses)).2.1)]
            underMad := streakStep s.underMad (tAt n) (metricAt d c n) } := by
        simp only [stepWalk, hcpos, hfst, List.nil_append,
          distPart_eq_spec d c n cpos hcpos, metricAt]
      rw [walkN_succ, hs, Option.some_bind, hstep]
      refine ⟨_, rfl, ?_, ?_, ?_⟩
      · simp only [hsd, distsN_succ]
      · simp only [hsm, metricsN_succ, streakFold_concat]
      · simp [hsl]

theorem walkN_none (d : SimulationData) (c : ℕ) :
    ∀ n : ℕ, (∃ k, k < n ∧ obsAt d c k = false) → walkN d c n = none := by
  intro n
  induction n with
  | zero => rintro ⟨k, hk, _⟩; omega
  | succ n ih =>
      rintro ⟨k, hk, hobs⟩
      by_cases hall : ∀ j, j < n → obsAt d c j = true
      · have hkn : k = n := by
          by_contra h
          have hklt : k < n := by omega
          have := hall k hklt
          rw [this] at hobs
          cases hobs
        rw [hkn] at hobs
        obtain ⟨s, hs, _⟩ := walkN_proj d c n hall
        rw [walkN_succ, hs, Option.some_bind]
        have hnone : d.pos_at_time (tAt n) c = none := by
          rw [obsAt] at hobs
          exact Option.not_isSome_iff_eq_none.mp (by simp [hobs])
        simp only [stepWalk, hnone]
      · push_neg at hall
        obtain ⟨j, hj, hjobs⟩ := hall
        have hjf : obsAt d c j = false := by
          cases hb : obsAt d c j
          · rfl
          · exact absurd hb hjobs
        rw [walkN_succ, ih ⟨j, hj, hjf⟩]
        rfl

/-! ## The fitness parts in terms of the spec-side quantities -/

theorem timedMetrics_eq_metricsN (d : SimulationData) (c : ℕ) :
    timedMetrics d c = metricsN d c (nSteps d) := rfl

theorem getFitnessParts_char (d : SimulationData) (c : ℕ) (hmin : d.uavs.min? = some c)
    (hnd : d.uavs.Nodup) (hc : ∀ k, k < nSteps d → obsAt d c k = true) :
    getFitnessParts d =
      some (200 * |3 - specAvgDistance d c|, 1 * specStabilizationTime d c,
        250 * specAvgSpeed d) := by
  have hw := walkN_char d c hnd (nSteps d) hc
  have hvel : ((expState d c (nSteps d)).allVelocities.map Prod.snd).sum /
      ((expState d c (nSteps d)).allVelocities.length : ℝ) = specAvgSpeed d := by
    rw [expState, specAvgSpeed, gslMean]
    simp only [velsN, List.map_map, List.length_map, List.length_range]
    rfl
  have hdist : ((expState d c (nSteps d)).allDistances.map Prod.snd).sum /
      ((expState d c (nSteps d)).allDistances.length : ℝ) = specAvgDistance d c := by
    rw [expState, specAvgDistance, gslMean]
    simp only [distsN, List.map_map, List.length_map, List.length_range]
    rfl
  have hstab : (((expState d c (nSteps d)).underMad.getD 360 : ℚ) : ℝ) =
      specStabilizationTime d c := rfl
  simp only [getFitnessParts, hmin, hw, hvel, hdist, hstab]

theorem get_fitness_eq_sum (d : SimulationData) (a b v : ℝ)
    (h : getFitnessParts d = some (a, b, v)) : get_fitness d = some (a + b + v) := by
  rw [get_fitness, h]
  rfl

/-! ## Constant-position traces -/

theorem const_specDistancesAt (d : SimulationData) (c : ℕ) (P : ℕ → Vec3) (k : ℕ)
    (hcm : c ∈ d.uavs) (hP : ∀ u ∈ d.uavs, ∀ t, d.pos_at_time t u = some (P u)) :
    specDistancesAt d c k = constDists d c P := by
  have hcpos : d.pos_at_time (tAt k) c = some (P c) := hP c hcm (tAt k)
  rw [specDistancesAt, hcpos, constDists]
  have hgen : ∀ us : List ℕ, (∀ u ∈ us, d.pos_at_time (tAt k) u = some (P u)) →
      us.filterMap (fun u => (d.pos_at_time (tAt k) u).map (fun p => vlen (vsub p (P c)))) =
        us.map (fun u => vlen (vsub (P u) (P c))) := by
    intro us
    induction us with
    | nil => intro _; rfl
    | cons a as ih =>
        intro h
        rw [List.filterMap_cons, List.map_cons, h a (by simp)]
        rw [ih (fun u hu => h u (by simp [hu]))]
        rfl
  apply hgen
  intro u hu
  exact hP u (List.mem_of_mem_filter hu) (tAt k)

theorem const_metricAt (d : SimulationData) (c : ℕ) (P : ℕ → Vec3) (k : ℕ)
    (hcm : c ∈ d.uavs) (hP : ∀ u ∈ d.uavs, ∀ t, d.pos_at_time t u = some (P u)) :
    metricAt d c k =
      gslAbsdev (constDists d c P) * gslMean (constDists d c P) * 100 := by
  rw [metricAt, const_specDistancesAt d c P k hcm hP]

theorem const_speeds_zero (d : SimulationData) (P : ℕ → Vec3) (k : ℕ)
    (hP : ∀ u ∈ d.uavs, ∀ t, d.pos_at_time t u = some (P u)) :
    ∀ x ∈ specSpeedsAt d k, x = 0 := by
  intro x hx
  obtain ⟨u, hu, hxu⟩ := List.mem_filterMap.mp hx
  rw [hP u hu (tAt k), Option.some_bind] at hxu
  obtain ⟨j, hj, hxj⟩ := Option.bind_eq_some.mp hxu
  rw [hP u hu (tAt j), Option.map_some'] at hxj
  have := Option.some.inj hxj
  rw [← this, vsub_self_zero, vdiv_zero, vlen_zero]

theorem const_specAvgSpeed (d : SimulationData) (P : ℕ → Vec3)
    (hP : ∀ u ∈ d.uavs, ∀ t, d.pos_at_time t u = some (P u)) :
    specAvgSpeed d = 0 := by
  rw [specAvgSpeed]
  apply gslMean_zeros
  intro y hy
  obtain ⟨k, _, rfl⟩ := List.mem_map.mp hy
  exact gslMean_zeros _ (const_speeds_zero d P k hP)

theorem const_specAvgDistance (d : SimulationData) (c : ℕ) (P : ℕ → Vec3)
    (hcm : c ∈ d.uavs) (hL : 0 ≤ d.simulation_length)
    (hP : ∀ u ∈ d.uavs, ∀ t, d.pos_at_time t u = some (P u)) :
    specAvgDistance d c = gslMean (constDists d c P) := by
  rw [specAvgDistance]
  apply gslMean_const
  · have := nSteps_pos d hL
    simp [List.range_eq_nil]
    omega
  · intro y hy
    obtain ⟨k, _, rfl⟩ := List.mem_map.mp hy
    rw [const_specDistancesAt d c P k hcm hP]

theorem const_specStabilizationTime (d : SimulationData) (c : ℕ) (P : ℕ → Vec3)
    (hcm : c ∈ d.uavs) (hL : 0 ≤ d.simulation_length)
    (hP : ∀ u ∈ d.uavs, ∀ t, d.pos_at_time t u = some (P u)) :
    specStabilizationTime d c =
      (if gslAbsdev (constDists d c P) * gslMean (constDists d c P) * 100 < madThreshold
        then 0 else 360) := by
  have hmet : ∀ k, metricAt d c k =
      gslAbsdev (constDists d c P) * gslMean (constDists d c P) * 100 :=
    fun k => const_metricAt d c P k hcm hP
  obtain ⟨m, hm⟩ : ∃ m, nSteps d = m + 1 := by
    have := nSteps_pos d hL
    exact ⟨nSteps d - 1, by omega⟩
  rw [specStabilizationTime, timedMetrics, hm, List.range_succ_eq_map, List.map_cons]
  by_cases hlt :
      gslAbsdev (constDists d c P) * gslMean (constDists d c P) * 100 < madThreshold
  · rw [if_pos hlt]
    have hstart : streakFold none
        ((tAt 0, metricAt d c 0) ::
          ((List.range m).map Nat.succ).map (fun k => (tAt k, metricAt d c k))) =
        some (tAt 0) := by
      apply streakFold_start
      · rw [hmet 0]; exact hlt
      · intro x hx
        obtain ⟨k, _, rfl⟩ := List.mem_map.mp hx
        show metricAt d c k < madThreshold
        rw [hmet k]; exact hlt
    rw [hstart]
    simp [tAt_zero]
  · rw [if_neg hlt]
    have hnone : streakFold none
        ((tAt 0, metricAt d c 0) ::
          ((List.range m).map Nat.succ).map (fun k => (tAt k, metricAt d c k))) = none := by
      apply streakFold_none_of_ge
      intro x hx
      rcases List.mem_cons.mp hx with h | h
      · rw [h]
        show madThreshold ≤ metricAt d c 0
        rw [hmet 0]; exact not_lt.mp hlt
      · obtain ⟨k, _, rfl⟩ := List.mem_map.mp h
        show madThreshold ≤ metricAt d c k
        rw [hmet k]; exact not_lt.mp hlt
    rw [hnone]
    simp

theorem constParts (d : SimulationData) (c : ℕ) (P : ℕ → Vec3)
    (hmin : d.uavs.min? = some c) (hnd : d.uavs.Nodup) (hL : 0 ≤ d.simulation_length)
    (hP : ∀ u ∈ d.uavs, ∀ t, d.pos_at_time t u = some (P u)) :
    getFitnessParts d =
      some (200 * |3 - gslMean (constDists d c P)|,
        (if gslAbsdev (constDists d c P) * gslMean (constDists d c P) * 100 < madThreshold
          then 0 else 360), 0) := by
  have hcm : c ∈ d.uavs := List.min?_mem (fun a b => min_choice a b) hmin
  have hc : ∀ k, k < nSteps d → obsAt d c k = true := by
    intro k _
    simp [obsAt, hP c hcm (tAt k)]
  rw [getFitnessParts_char d c hmin hnd hc,
    const_specAvgDistance d c P hcm hL hP,
    const_specStabilizationTime d c P hcm hL hP,
    const_specAvgSpeed d P hP]
  simp

theorem constParts_dist3 (d : SimulationData) (c : ℕ) (P : ℕ → Vec3)
    (hmin : d.uavs.min? = some c) (hnd : d.uavs.Nodup) (hL : 0 ≤ d.simulation_length)
    (hP : ∀ u ∈ d.uavs, ∀ t, d.pos_at_time t u = some (P u))
    (hdist : ∀ u ∈ d.uavs, u ≠ c → vlen (vsub (P u) (P c)) = 3)
    (hex : ∃ u, u ∈ d.uavs ∧ u ≠ c) :
    getFitnessParts d = some (0, 0, 0) ∧ get_fitness d = some 0 := by
  have hall : ∀ y ∈ constDists d c P, y = 3 := by
    intro y hy
    obtain ⟨u, hu, rfl⟩ := List.mem_map.mp hy
    have hu2 := List.mem_filter.mp hu
    exact hdist u hu2.1 (by simpa using hu2.2)
  have hne : constDists d c P ≠ [] := by
    obtain ⟨u, hu, hne⟩ := hex
    rw [constDists]
    intro hcon
    have : u ∈ d.uavs.filter (fun u => u ≠ c) := List.mem_filter.mpr ⟨hu, by simpa using hne⟩
    rw [List.map_eq_nil_iff] at hcon
    rw [hcon] at this
    cases this
  have hmean : gslMean (constDists d c P) = 3 := gslMean_const _ 3 hne hall
  have habs : gslAbsdev (constDists d c P) = 0 := gslAbsdev_const _ 3 hall
  have hparts := constParts d c P hmin hnd hL hP
  rw [hmean, habs] at hparts
  have hlt : (0 : ℝ) * 3 * 100 < madThreshold := by
    rw [madThreshold]; norm_num
  rw [if_pos hlt] at hparts
  have h0 : (200 : ℝ) * |3 - 3| = 0 := by norm_num
  rw [h0] at hparts
  exact ⟨hparts, by simpa using get_fitness_eq_sum d _ _ _ hparts⟩

theorem timedMetrics_pairwise (d : SimulationData) (c : ℕ) :
    (timedMetrics d c).Pairwise (fun x y => x.1 < y.1) := by
  rw [timedMetrics, List.pairwise_map]
  exact (List.pairwise_lt_range _).imp (fun hab => tAt_lt_tAt _ _ hab)

/-! ## Facts about the concrete traces -/

theorem vlen_sub_axis (x : ℝ) (hx : 0 ≤ x) :
    vlen (vsub (x, (0 : ℝ), (0 : ℝ)) ((0 : ℝ), (0 : ℝ), (0 : ℝ))) = x := by
  have h : vsub (x, (0 : ℝ), (0 : ℝ)) ((0 : ℝ), (0 : ℝ), (0 : ℝ)) = (x, (0 : ℝ), (0 : ℝ)) := by
    simp [vsub]
  rw [h]
  exact vlen_axis x hx

theorem dConst_min : dConst.uavs.min? = some 0 := by decide

theorem dConst_nodup : dConst.uavs.Nodup := by decide

theorem dConst_len : dConst.simulation_length = 1/5 := rfl

theorem dConst_pos : ∀ u ∈ dConst.uavs, ∀ t, dConst.pos_at_time t u = some (pConst u) := by
  intro u hu t
  have h : u = 0 ∨ u = 1 := by simpa [dConst] using hu
  rcases h with rfl | rfl <;> simp [dConst, pConst]

theorem dConst_dist : ∀ u ∈ dConst.uavs, u ≠ 0 → vlen (vsub (pConst u) (pConst 0)) = 3 := by
  intro u hu hne
  have h : u = 1 := by
    have h2 : u = 0 ∨ u = 1 := by simpa [dConst] using hu
    tauto
  subst h
  have h1 : pConst 1 = ((3 : ℝ), (0 : ℝ), (0 : ℝ)) := by simp [pConst]
  have h0 : pConst 0 = ((0 : ℝ), (0 : ℝ), (0 : ℝ)) := by simp [pConst]
  rw [h1, h0]
  exact vlen_sub_axis 3 (by norm_num)

/-- `C4` (amended): a constant-position, zero-velocity trace with all entities
at distance exactly 3 from the reference entity scores distance cost 0,
velocity cost 0, and stabilization time 0 — the metric is 0, below the 30
threshold, from the first timestep, so the streak starts at time 0; the
stabilization time is not the full trace duration. -/
theorem claim_c4 (d : SimulationData) (c : ℕ) (P : ℕ → Vec3)
    (hmin : d.uavs.min? = some c) (hnd : d.uavs.Nodup) (hL : 0 ≤ d.simulation_length)
    (hP : ∀ u ∈ d.uavs, ∀ t, d.pos_at_time t u = some (P u))
    (hdist : ∀ u ∈ d.uavs, u ≠ c → vlen (vsub (P u) (P c)) = 3)
    (hex : ∃ u, u ∈ d.uavs ∧ u ≠ c) :
    getFitnessParts d = some (0, 0, 0) ∧ get_fitness d = some 0 :=
  constParts_dist3 d c P hmin hnd hL hP hdist hex

/-- `C4` counterexample: on the concrete constant trace `dConst` of declared
duration 0.2 with both entities at distance exactly 3, the three cost
components are `(0, 0, 0)` — in particular the stabilization-time component is
0, which differs from the full trace duration 0.2 claimed by the spec. -/
theorem claim_c4_counterexample :
    getFitnessParts dConst = some (0, 0, 0) ∧ dConst.simulation_length = 1/5 ∧
      (0 : ℝ) ≠ ((dConst.simulation_length : ℚ) : ℝ) := by
  have h := constParts_dist3 dConst 0 pConst dConst_min dConst_nodup
    (by rw [dConst_len]; norm_num) dConst_pos dConst_dist
    ⟨1, by simp [dConst], by norm_num⟩
  refine ⟨h.1, rfl, ?_⟩
  rw [dConst_len]
  norm_num

/-- `C4` witness: the hypotheses of the amended claim hold for the concrete
trace `dConst` and the conclusion follows. -/
theorem claim_c4_witness :
    dConst.uavs.min? = some 0 ∧ dConst.uavs.Nodup ∧ 0 ≤ dConst.simulation_length ∧
      getFitnessParts dConst = some (0, 0, 0) ∧ get_fitness dConst = some 0 := by
  refine ⟨dConst_min, dConst_nodup, by rw [dConst_len]; norm_num, ?_⟩
  exact claim_c4 dConst 0 pConst dConst_min dConst_nodup (by rw [dConst_len]; norm_num)
    dConst_pos dConst_dist ⟨1, by simp [dConst], by norm_num⟩

theorem dSpread_min : dSpread.uavs.min? = some 0 := by decide

theorem dSpread_nodup : dSpread.uavs.Nodup := by decide

theorem dSpread_len : dSpread.simulation_length = 1/5 := rfl

theorem dSpread_pos : ∀ u ∈ dSpread.uavs, ∀ t, dSpread.pos_at_time t u = some (pSpread u) := by
  intro u hu t
  have h : u = 0 ∨ u = 1 ∨ u = 2 := by simpa [dSpread] using hu
  rcases h with rfl | rfl | rfl <;> simp [dSpread, pSpread]

theorem dSpread_constDists : constDists dSpread 0 pSpread = [1, 3] := by
  rw [constDists]
  have hf : dSpread.uavs.filter (fun u => u ≠ 0) = [1, 2] := by decide
  rw [hf, List.map_cons, List.map_cons, List.map_nil]
  have p0 : pSpread 0 = ((0 : ℝ), (0 : ℝ), (0 : ℝ)) := by simp [pSpread]
  have p1 : pSpread 1 = ((1 : ℝ), (0 : ℝ), (0 : ℝ)) := by simp [pSpread]
  have p2 : pSpread 2 = ((3 : ℝ), (0 : ℝ), (0 : ℝ)) := by simp [pSpread]
  rw [p0, p1, p2, vlen_sub_axis 1 (by norm_num), vlen_sub_axis 3 (by norm_num)]

theorem gslMean_one_three : gslMean [(1 : ℝ), 3] = 2 := by
  rw [gslMean]
  norm_num

theorem gslAbsdev_one_three : gslAbsdev [(1 : ℝ), 3] = 1 := by
  rw [gslAbsdev, gslMean_one_three]
  have h1 : |(1 : ℝ) - 2| = 1 := by
    rw [show (1 : ℝ) - 2 = -1 by norm_num]
    norm_num
  have h3 : |(3 : ℝ) - 2| = 1 := by
    rw [show (3 : ℝ) - 2 = 1 by norm_num]
    norm_num
  simp [h1, h3]

theorem dSpread_metric : ∀ k, metricAt dSpread 0 k = 200 := by
  intro k
  have hcm : (0 : ℕ) ∈ dSpread.uavs := by simp [dSpread]
  rw [const_metricAt dSpread 0 pSpread k hcm dSpread_pos, dSpread_constDists,
    gslMean_one_three, gslAbsdev_one_three]
  norm_num

/-- `C5` (amended): whenever the stability metric never drops below the
threshold during the walk, or the last streak is broken before the trace ends
(the final streak state is `none`), the reported stabilization-time component
is the hardcoded constant `360.0`, regardless of the declared trace
duration. -/
theorem claim_c5 (d : SimulationData) (c : ℕ) (hmin : d.uavs.min? = some c)
    (hc : ∀ k, k < nSteps d → obsAt d c k = true)
    (h : (∀ x ∈ timedMetrics d c, madThreshold ≤ x.2) ∨
      streakFold none (timedMetrics d c) = none) :
    ∃ a v, getFitnessParts d = some (a, 360, v) := by
  have hnone : streakFold none (timedMetrics d c) = none :=
    h.elim (fun hall => streakFold_none_of_ge _ hall) id
  obtain ⟨s, hs, _, hsm, _⟩ := walkN_proj d c (nSteps d) hc
  rw [← timedMetrics_eq_metricsN, hnone] at hsm
  refine ⟨200 * |3 - (s.allDistances.map Prod.snd).sum / (s.allDistances.length : ℝ)|,
    250 * ((s.allVelocities.map Prod.snd).sum / (s.allVelocities.length : ℝ)), ?_⟩
  simp only [getFitnessParts, hmin, hs, hsm]
  norm_num

/-- `C5` counterexample: on the concrete constant trace `dSpread` of declared
duration 0.2 whose stability metric is the constant 200 (never below the
threshold), the reported stabilization-time component is 360, not the declared
duration 0.2 claimed by the spec. -/
theorem claim_c5_counterexample :
    getFitnessParts dSpread = some (200, 360, 0) ∧ dSpread.simulation_length = 1/5 ∧
      (360 : ℝ) ≠ ((dSpread.simulation_length : ℚ) : ℝ) := by
  have h := constParts dSpread 0 pSpread dSpread_min dSpread_nodup
    (by rw [dSpread_len]; norm_num) dSpread_pos
  rw [dSpread_constDists, gslMean_one_three, gslAbsdev_one_three] at h
  have hge : ¬((1 : ℝ) * 2 * 100 < madThreshold) := by
    rw [madThreshold]; norm_num
  rw [if_neg hge] at h
  have h200 : (200 : ℝ) * |3 - 2| = 200 := by
    rw [show (3 : ℝ) - 2 = 1 by norm_num]
    norm_num
  rw [h200] at h
  refine ⟨h, rfl, ?_⟩
  rw [dSpread_len]
  norm_num

/-- `C5` witness: the hypotheses of the amended claim hold for the concrete
trace `dSpread` (its metric is the constant 200, at or above the threshold at
every step) and the conclusion follows. -/
theorem claim_c5_witness :
    (∀ x ∈ timedMetrics dSpread 0, madThreshold ≤ x.2) ∧
      ∃ a v, getFitnessParts dSpread = some (a, 360, v) := by
  have hall : ∀ x ∈ timedMetrics dSpread 0, madThreshold ≤ x.2 := by
    intro x hx
    rw [timedMetrics] at hx
    obtain ⟨k, _, rfl⟩ := List.mem_map.mp hx
    show madThreshold ≤ metricAt dSpread 0 k
    rw [dSpread_metric k, madThreshold]
    norm_num
  have hc : ∀ k, k < nSteps dSpread → obsAt dSpread 0 k = true := by
    intro k _
    have := dSpread_pos 0 (by simp [dSpread]) (tAt k)
    simp [obsAt, this]
  exact ⟨hall, claim_c5 dSpread 0 dSpread_min hc (Or.inl hall)⟩

/-- `C7`: when the stability metric dips below the threshold, rises back to or
above it at some step `(tb, mb)`, and then stays below the threshold from step
`(tq, mq)` to the end of the walk, the reported stabilization-time component is
`tq`, the start of the last streak, which is strictly later than any earlier
below-threshold time `t0`. -/
theorem claim_c7 (d : SimulationData) (c : ℕ) (p : List (ℚ × ℝ)) (tb tq t0 : ℚ)
    (mb mq m0 : ℝ) (qrest : List (ℚ × ℝ))
    (hmin : d.uavs.min? = some c)
    (hc : ∀ k, k < nSteps d → obsAt d c k = true)
    (hdecomp : timedMetrics d c = p ++ (tb, mb) :: (tq, mq) :: qrest)
    (hdip : (t0, m0) ∈ p) (hm0 : m0 < madThreshold)
    (hmb : madThreshold ≤ mb) (hmq : mq < madThreshold)
    (hrest : ∀ x ∈ qrest, x.2 < madThreshold) :
    (∃ a v, getFitnessParts d = some (a, ((tq : ℚ) : ℝ), v)) ∧ t0 < tq := by
  have hfold : streakFold none (timedMetrics d c) = some tq := by
    rw [hdecomp, streakFold_append, streakFold_break _ tb mb _ hmb]
    exact streakFold_start tq mq qrest hmq hrest
  obtain ⟨s, hs, _, hsm, _⟩ := walkN_proj d c (nSteps d) hc
  rw [← timedMetrics_eq_metricsN, hfold] at hsm
  constructor
  · refine ⟨200 * |3 - (s.allDistances.map Prod.snd).sum / (s.allDistances.length : ℝ)|,
      250 * ((s.allVelocities.map Prod.snd).sum / (s.allVelocities.length : ℝ)), ?_⟩
    simp only [getFitnessParts, hmin, hs, hsm]
    norm_num
  · have hpw := timedMetrics_pairwise d c
    rw [hdecomp] at hpw
    exact (List.pairwise_append.mp hpw).2.2 (t0, m0) hdip (tq, mq) (by simp)

theorem dDip_min : dDip.uavs.min? = some 0 := by decide

theorem dDip_filter : dDip.uavs.filter (fun u => u ≠ 0) = [1, 2] := by decide

theorem dDip_nSteps : nSteps dDip = 3 := by
  rw [nSteps]
  norm_num [dDip]
  decide

theorem vlen_30 : vlen (vsub ((3 : ℝ), (0 : ℝ), (0 : ℝ)) ((0 : ℝ), (0 : ℝ), (0 : ℝ))) = 3 :=
  vlen_sub_axis 3 (by norm_num)

theorem vlen_10 : vlen (vsub ((1 : ℝ), (0 : ℝ), (0 : ℝ)) ((0 : ℝ), (0 : ℝ), (0 : ℝ))) = 1 :=
  vlen_sub_axis 1 (by norm_num)

theorem dDip_dists_ne (k : ℕ) (hk : ¬(tAt k = 1/10)) : specDistancesAt dDip 0 k = [3, 3] := by
  have h0 : dDip.pos_at_time (tAt k) 0 = some ((0 : ℝ), (0 : ℝ), (0 : ℝ)) := by simp [dDip]
  have hk2 : ¬(tAt k = (10 : ℚ)⁻¹) := by
    rw [show ((10 : ℚ))⁻¹ = 1/10 from by norm_num]
    exact hk
  have h1 : dDip.pos_at_time (tAt k) 1 = some ((3 : ℝ), (0 : ℝ), (0 : ℝ)) := by
    simp [dDip, hk2]
  have h2 : dDip.pos_at_time (tAt k) 2 = some ((3 : ℝ), (0 : ℝ), (0 : ℝ)) := by simp [dDip]
  simp only [specDistancesAt, h0, dDip_filter, List.filterMap_cons, List.filterMap_nil,
    h1, h2, Option.map_some']
  rw [vlen_30]

theorem dDip_dists_one : specDistancesAt dDip 0 1 = [1, 3] := by
  have ht1 : tAt 1 = 1/10 := by rw [tAt]; norm_num
  have h0 : dDip.pos_at_time (tAt 1) 0 = some ((0 : ℝ), (0 : ℝ), (0 : ℝ)) := by simp [dDip]
  have ht1b : tAt 1 = (10 : ℚ)⁻¹ := by
    rw [ht1]
    norm_num
  have h1 : dDip.pos_at_time (tAt 1) 1 = some ((1 : ℝ), (0 : ℝ), (0 : ℝ)) := by
    simp [dDip, ht1b]
  have h2 : dDip.pos_at_time (tAt 1) 2 = some ((3 : ℝ), (0 : ℝ), (0 : ℝ)) := by simp [dDip]
  simp only [specDistancesAt, h0, dDip_filter, List.filterMap_cons, List.filterMap_nil,
    h1, h2, Option.map_some']
  rw [vlen_10, vlen_30]

theorem gslMean_three_three : gslMean [(3 : ℝ), 3] = 3 := by
  rw [gslMean]
  norm_num

theorem gslAbsdev_three_three : gslAbsdev [(3 : ℝ), 3] = 0 := by
  apply gslAbsdev_const _ 3
  intro y hy
  simp at hy
  rcases hy with rfl | rfl <;> rfl

theorem dDip_metric0 : metricAt dDip 0 0 = 0 := by
  have h0 : ¬(tAt 0 = 1/10) := by rw [tAt]; norm_num
  rw [metricAt, dDip_dists_ne 0 h0, gslMean_three_three, gslAbsdev_three_three]
  norm_num

theorem dDip_metric1 : metricAt dDip 0 1 = 200 := by
  rw [metricAt, dDip_dists_one, gslMean_one_three, gslAbsdev_one_three]
  norm_num

theorem dDip_metric2 : metricAt dDip 0 2 = 0 := by
  have h2 : ¬(tAt 2 = 1/10) := by rw [tAt]; norm_num
  rw [metricAt, dDip_dists_ne 2 h2, gslMean_three_three, gslAbsdev_three_three]
  norm_num

theorem dDip_timedMetrics : timedMetrics dDip 0 = [(0, 0), (1/10, 200), (1/5, 0)] := by
  rw [timedMetrics, dDip_nSteps]
  rw [show List.range 3 = [0, 1, 2] from rfl]
  rw [List.map_cons, List.map_cons, List.map_cons, List.map_nil]
  rw [dDip_metric0, dDip_metric1, dDip_metric2]
  norm_num [tAt]

/-- `C7` witness: the trace `dDip` realises the dip-rise-dip pattern with
metrics 0, 200, 0 at times 0, 0.1, 0.2, and the reported stabilization time is
0.2, the start of the last streak, not the first dip at time 0. -/
theorem claim_c7_witness :
    timedMetrics dDip 0 = [((0 : ℚ), (0 : ℝ))] ++
      ((1/10 : ℚ), (200 : ℝ)) :: ((1/5 : ℚ), (0 : ℝ)) :: [] ∧
    (∃ a v, getFitnessParts dDip = some (a, (((1/5 : ℚ) : ℚ) : ℝ), v)) ∧ (0 : ℚ) < 1/5 := by
  have hd : timedMetrics dDip 0 = [((0 : ℚ), (0 : ℝ))] ++
      ((1/10 : ℚ), (200 : ℝ)) :: ((1/5 : ℚ), (0 : ℝ)) :: [] := by
    rw [dDip_timedMetrics]
    rfl
  have hc : ∀ k, k < nSteps dDip → obsAt dDip 0 k = true := by
    intro k _
    simp [obsAt, dDip]
  have h := claim_c7 dDip 0 [((0 : ℚ), (0 : ℝ))] (1/10) (1/5) 0 200 0 0 []
    dDip_min hc hd (by simp) (by rw [madThreshold]; norm_num)
    (by rw [madThreshold]; norm_num) (by rw [madThreshold]; norm_num)
    (by intro x hx; cases hx)
  exact ⟨hd, h.1, h.2⟩

/-- `C6`: for every parsed trace on which `get_fitness` returns (reference
entity = the minimum identifier, every sampled central position known,
distinct entity identifiers), the fitness equals
`200 * |3 - average_distance| + 1 * stabilization_time + 250 * average_speed`,
where the averages are means over timesteps of the per-timestep mean distances
(excluding the reference entity) and mean speeds. -/
theorem claim_c6 (d : SimulationData) (c : ℕ) (f : ℝ) (hmin : d.uavs.min? = some c)
    (hnd : d.uavs.Nodup) (hc : ∀ k, k < nSteps d → obsAt d c k = true)
    (hf : get_fitness d = some f) :
    f = 200 * |3 - specAvgDistance d c| + 1 * specStabilizationTime d c +
      250 * specAvgSpeed d := by
  have h := getFitnessParts_char d c hmin hnd hc
  have h2 := get_fitness_eq_sum d _ _ _ h
  rw [hf] at h2
  exact Option.some.inj h2

/-- `C6` witness: the hypotheses hold for the concrete trace `dConst` and the
computed fitness 0 satisfies the formula. -/
theorem claim_c6_witness :
    dConst.uavs.min? = some 0 ∧ dConst.uavs.Nodup ∧
      ∃ f, get_fitness dConst = some f ∧
        f = 200 * |3 - specAvgDistance dConst 0| + 1 * specStabilizationTime dConst 0 +
          250 * specAvgSpeed dConst := by
  have hc : ∀ k, k < nSteps dConst → obsAt dConst 0 k = true := by
    intro k _
    have h := dConst_pos 0 (by simp [dConst]) (tAt k)
    simp [obsAt, h]
  have hf : get_fitness dConst = some 0 :=
    (constParts_dist3 dConst 0 pConst dConst_min dConst_nodup (by rw [dConst_len]; norm_num)
      dConst_pos dConst_dist ⟨1, by simp [dConst], by norm_num⟩).2
  exact ⟨dConst_min, dConst_nodup, 0, hf, claim_c6 dConst 0 0 dConst_min dConst_nodup hc hf⟩

/-- `C10`: `get_fitness` is partial — it panics (modelled as `none`) when the
entity set is empty and when the reference entity (the minimum identifier)
lacks a known position at some sampled step, while it returns a value whenever
the reference entity has a position at every sampled step, regardless of other
entities lacking positions (those are silently skipped). -/
theorem claim_c10 :
    (∀ d : SimulationData, d.uavs = [] → get_fitness d = none) ∧
    (∀ (d : SimulationData) (c : ℕ), d.uavs.min? = some c →
      (∃ k, k < nSteps d ∧ d.pos_at_time (tAt k) c = none) → get_fitness d = none) ∧
    (∀ (d : SimulationData) (c : ℕ), d.uavs.min? = some c →
      (∀ k, k < nSteps d → obsAt d c k = true) → (get_fitness d).isSome = true) := by
  refine ⟨?_, ?_, ?_⟩
  · intro d h
    simp only [get_fitness, getFitnessParts, h, List.min?_nil, Option.map_none']
  · rintro d c hmin ⟨k, hk, hpos⟩
    have hobs : obsAt d c k = false := by simp [obsAt, hpos]
    have hwn := walkN_none d c (nSteps d) ⟨k, hk, hobs⟩
    simp only [get_fitness, getFitnessParts, hmin, hwn, Option.map_none']
  · intro d c hmin hc
    obtain ⟨s, hs, _⟩ := walkN_proj d c (nSteps d) hc
    simp only [get_fitness, getFitnessParts, hmin, hs, Option.map_some', Option.isSome_some]

theorem dMissCentral_nSteps : nSteps dMissCentral = 2 := by
  rw [nSteps]
  norm_num [dMissCentral]
  decide

/-- `C10` witness: the empty trace panics, the trace whose reference entity is
missing at the second sampled step panics, and the trace whose non-reference
entity is missing at the second sampled step still scores. -/
theorem claim_c10_witness :
    get_fitness dEmpty = none ∧ get_fitness dMissCentral = none ∧
      (get_fitness dSkip).isSome = true := by
  refine ⟨claim_c10.1 dEmpty rfl, ?_, ?_⟩
  · apply claim_c10.2.1 dMissCentral 0 (by decide)
    refine ⟨1, ?_, ?_⟩
    · rw [dMissCentral_nSteps]
      norm_num
    · have h1 : ¬(tAt 1 = (0 : ℚ)) := by
        rw [tAt]
        norm_num
      simp [dMissCentral, h1]
  · apply claim_c10.2.2 dSkip 0 (by decide)
    intro k _
    simp [obsAt, dSkip]

/-! ## The worker protocol: lemmas -/

theorem lookup_map_self (g : String → ℚ) (n : String) :
    ∀ ps : List String, n ∈ ps → (ps.map (fun m => (m, g m))).lookup n = some (g n) := by
  intro ps
  induction ps with
  | nil => intro h; cases h
  | cons a as ih =>
      intro h
      rw [List.map_cons]
      by_cases hn : n = a
      · subst hn
        simp [List.lookup]
      · have hmem : n ∈ as := by
          rcases List.mem_cons.mp h with h1 | h1
          · exact absurd h1 hn
          · exact h1
        have hba : (n == a) = false := by
          simp [hn]
        simp only [List.lookup, hba]
        exact ih hmem

theorem tellAll_ok (env : AnalysisEnv) (pm : List (String × ℚ)) (ft : ℚ) (g : String → ℚ) :
    ∀ ps : List String, (∀ n ∈ ps, pm.lookup n = some (g n)) →
    (∀ n ∈ ps, env.tellOk n = true) →
    tellAll env pm ft ps = (ps.map (fun n => (n, g n, ft)), none) := by
  intro ps
  induction ps with
  | nil => intro _ _; rfl
  | cons a as ih =>
      intro hlk htl
      rw [tellAll, hlk a (by simp), htl a (by simp)]
      simp only [if_true]
      rw [ih (fun n hn => hlk n (by simp [hn])) (fun n hn => htl n (by simp [hn]))]
      rfl

theorem tellAll_snd_none (env : AnalysisEnv) (pm : List (String × ℚ)) (ft : ℚ) :
    ∀ ps : List String, ((tellAll env pm ft ps).2 = none ↔
      ∀ n ∈ ps, (pm.lookup n).isSome = true ∧ env.tellOk n = true) := by
  intro ps
  induction ps with
  | nil => simp [tellAll]
  | cons a as ih =>
      rw [tellAll]
      cases hlk : pm.lookup a with
      | none =>
          refine ⟨fun h => ?_, fun h => ?_⟩
          · simp at h
          · have h2 := (h a (by simp)).1
            rw [hlk] at h2
            simp at h2
      | some v =>
          cases htl : env.tellOk a with
          | false =>
              refine ⟨fun h => ?_, fun h => ?_⟩
              · simp at h
              · have h2 := (h a (by simp)).2
                rw [htl] at h2
                exact Bool.noConfusion h2
          | true =>
              simp only [if_true, htl]
              constructor
              · intro h
                intro n hn
                rcases List.mem_cons.mp hn with rfl | hn2
                · exact ⟨by simp [hlk], htl⟩
                · exact (ih.mp h) n hn2
              · intro h
                exact ih.mpr (fun n hn => h n (by simp [hn]))

theorem run_analysis_parse_fail (pm : List (String × ℚ)) (ps : List String) (best : ℚ)
    (env : AnalysisEnv) (hp : env.parseOk = false) :
    run_analysis pm ps best env =
      { outcome := .errored, tells := [], appended := none, best := best,
        warnings := [], copied := false } := by
  simp [run_analysis, hp]

theorem run_analysis_fitness_panic (pm : List (String × ℚ)) (ps : List String) (best : ℚ)
    (env : AnalysisEnv) (hp : env.parseOk = true) (hf : env.fitness = none) :
    run_analysis pm ps best env =
      { outcome := .panicked .fitnessPanic, tells := [], appended := none, best := best,
        warnings := [], copied := false } := by
  simp [run_analysis, hp, hf]

theorem run_analysis_tell_panic (pm : List (String × ℚ)) (ps : List String) (best ft : ℚ)
    (env : AnalysisEnv) (site : PanicSite) (hp : env.parseOk = true)
    (hf : env.fitness = some ft) (htold : (tellAll env pm ft ps).2 = some site) :
    run_analysis pm ps best env =
      { outcome := .panicked site, tells := (tellAll env pm ft ps).1, appended := none,
        best := best, warnings := [], copied := false } := by
  simp [run_analysis, hp, hf, htold]

theorem run_analysis_success (pm : List (String × ℚ)) (ps : List String) (best ft : ℚ)
    (env : AnalysisEnv) (hp : env.parseOk = true) (hf : env.fitness = some ft)
    (htold : (tellAll env pm ft ps).2 = none) :
    (run_analysis pm ps best env).outcome =
      (if ft < best then (if env.copyOk then .ok else .panicked .copyPanic) else .ok) ∧
    (run_analysis pm ps best env).tells = (tellAll env pm ft ps).1 ∧
    (run_analysis pm ps best env).appended = some (pm, ft) ∧
    (run_analysis pm ps best env).best = (if ft < best then ft else best) := by
  by_cases hlt : ft < best
  · cases hcp : env.copyOk with
    | true => simp [run_analysis, hp, hf, htold, hlt, hcp]
    | false => simp [run_analysis, hp, hf, htold, hlt, hcp]
  · simp [run_analysis, hp, hf, htold, hlt]

theorem run_analysis_copy_panic (pm : List (String × ℚ)) (ps : List String) (best ft : ℚ)
    (env : AnalysisEnv) (hp : env.parseOk = true) (hf : env.fitness = some ft)
    (htold : (tellAll env pm ft ps).2 = none) (hlt : ft < best) (hcp : env.copyOk = false) :
    run_analysis pm ps best env =
      { outcome := .panicked .copyPanic, tells := (tellAll env pm ft ps).1,
        appended := some (pm, ft), best := ft, warnings := [], copied := false } := by
  simp [run_analysis, hp, hf, htold, hlt, hcp]

theorem run_binary_exited (b : Bool) : run_binary (.exited b) = .ok () := by
  cases b <;> rfl

theorem runIteration_spawnErr (st : StateImpl) (best : ℚ) (env : IterEnv)
    (h : env.spawn = .spawnErr) :
    runIteration st best env =
      (st, best, [st.params.map (fun n => Event.askEv n (env.asked n))], none) := by
  simp only [runIteration, h, run_binary]

theorem runIteration_ok_proj (st : StateImpl) (best : ℚ) (env : IterEnv)
    (hok : run_binary env.spawn = .ok ()) :
    (runIteration st best env).1.params = st.params ∧
    (runIteration st best env).1.results = st.results ++
      (run_analysis (st.params.map (fun n => (n, env.asked n))) st.params best
        env.analysis).appended.toList ∧
    (runIteration st best env).2.1 =
      (run_analysis (st.params.map (fun n => (n, env.asked n))) st.params best
        env.analysis).best ∧
    (runIteration st best env).2.2.2 =
      (run_analysis (st.params.map (fun n => (n, env.asked n))) st.params best
        env.analysis).appended := by
  simp [runIteration, hok]

theorem runIteration_char (st : StateImpl) (best : ℚ) (env : IterEnv) :
    (runIteration st best env).1.params = st.params ∧
    (iterSucceeds st.params env = true →
      ∃ ft, env.analysis.fitness = some ft ∧
        (runIteration st best env).1.results =
          st.results ++ [(st.params.map (fun n => (n, env.asked n)), ft)] ∧
        (runIteration st best env).2.1 = (if ft < best then ft else best)) ∧
    (iterSucceeds st.params env = false →
      (runIteration st best env).1.results = st.results ∧
      (runIteration st best env).2.1 = best) := by
  cases hsp : env.spawn with
  | spawnErr =>
      rw [runIteration_spawnErr st best env hsp]
      refine ⟨rfl, fun hsucc => ?_, fun _ => ⟨rfl, rfl⟩⟩
      rw [iterSucceeds, hsp] at hsucc
      simp at hsucc
  | exited b =>
      have hok : run_binary env.spawn = .ok () := by
        rw [hsp]
        exact run_binary_exited b
      obtain ⟨hpar, hres, hbest, _⟩ := runIteration_ok_proj st best env hok
      refine ⟨hpar, fun hsucc => ?_, fun hfail => ?_⟩
      · rw [iterSucceeds, hsp] at hsucc
        simp only [Bool.true_and, Bool.and_eq_true, List.all_eq_true] at hsucc
        obtain ⟨⟨hp, hfs⟩, htl⟩ := hsucc
        obtain ⟨ft, hft⟩ := Option.isSome_iff_exists.mp hfs
        have htold : (tellAll env.analysis (st.params.map (fun m => (m, env.asked m))) ft
            st.params).2 = none := by
          rw [tellAll_snd_none]
          intro n hn
          refine ⟨?_, htl n hn⟩
          rw [lookup_map_self env.asked n st.params hn]
          rfl
        have hs := run_analysis_success _ _ best ft env.analysis hp hft htold
        refine ⟨ft, hft, ?_, ?_⟩
        · rw [hres, hs.2.2.1]
          rfl
        · rw [hbest, hs.2.2.2]
      · rw [iterSucceeds, hsp] at hfail
        simp only [Bool.true_and] at hfail
        cases hp : env.analysis.parseOk with
        | false =>
            rw [run_analysis_parse_fail _ _ _ _ hp] at hres hbest
            exact ⟨by rw [hres]; simp, by rw [hbest]⟩
        | true =>
            cases hft : env.analysis.fitness with
            | none =>
                rw [run_analysis_fitness_panic _ _ _ _ hp hft] at hres hbest
                exact ⟨by rw [hres]; simp, by rw [hbest]⟩
            | some ft =>
                have htl : st.params.all (fun n => env.analysis.tellOk n) = false := by
                  rw [hp, hft] at hfail
                  simpa using hfail
                cases h2 : (tellAll env.analysis
                    (st.params.map (fun m => (m, env.asked m))) ft st.params).2 with
                | none =>
                    exfalso
                    have hall := (tellAll_snd_none env.analysis _ ft st.params).mp h2
                    have hcon : st.params.all (fun n => env.analysis.tellOk n) = true :=
                      List.all_eq_true.mpr (fun n hn => (hall n hn).2)
                    rw [htl] at hcon
                    exact Bool.noConfusion hcon
                | some site =>
                    rw [run_analysis_tell_panic _ _ _ ft _ site hp hft h2] at hres hbest
                    exact ⟨by rw [hres]; simp, by rw [hbest]⟩

theorem runIters_delta :
    ∀ (envs : List IterEnv) (st : StateImpl) (best : ℚ),
    ∃ Δ : List (List (String × ℚ) × ℚ),
      (runIters envs st best).1.params = st.params ∧
      (runIters envs st best).1.results = st.results ++ Δ ∧
      Δ.length = envs.countP (fun e => iterSucceeds st.params e) ∧
      (∀ tr ∈ Δ, tr.1.map Prod.fst = st.params) ∧
      (runIters envs st best).2 = Δ.foldl (fun b tr => if tr.2 < b then tr.2 else b) best := by
  intro envs
  induction envs with
  | nil =>
      intro st best
      refine ⟨[], rfl, ?_, rfl, ?_, rfl⟩
      · exact (List.append_nil _).symm
      · intro tr htr
        cases htr
  | cons e rest ih =>
      intro st best
      obtain ⟨hpar, hsucc, hfail⟩ := runIteration_char st best e
      cases hb : iterSucceeds st.params e with
      | true =>
          obtain ⟨ft, _, hres, hbest⟩ := hsucc hb
          obtain ⟨Δ, hpar2, hres2, hlen2, hkeys2, hbest2⟩ :=
            ih (runIteration st best e).1 (runIteration st best e).2.1
          refine ⟨(st.params.map (fun n => (n, e.asked n)), ft) :: Δ, ?_, ?_, ?_, ?_, ?_⟩
          · rw [show runIters (e :: rest) st best =
              runIters rest (runIteration st best e).1 (runIteration st best e).2.1 from rfl]
            rw [hpar2, hpar]
          · rw [show runIters (e :: rest) st best =
              runIters rest (runIteration st best e).1 (runIteration st best e).2.1 from rfl]
            rw [hres2, hres, List.append_assoc]
            rfl
          · rw [List.length_cons, List.countP_cons]
            rw [hlen2, hpar, hb]
            rfl
          · intro tr htr
            rcases List.mem_cons.mp htr with rfl | htr2
            · show List.map Prod.fst (List.map (fun n => (n, e.asked n)) st.params) = st.params
              rw [List.map_map]
              exact List.map_id st.params
            · rw [← hpar]
              exact hkeys2 tr htr2
          · rw [show runIters (e :: rest) st best =
              runIters rest (runIteration st best e).1 (runIteration st best e).2.1 from rfl]
            rw [hbest2, hbest, List.foldl_cons]
      | false =>
          obtain ⟨hres, hbest⟩ := hfail hb
          obtain ⟨Δ, hpar2, hres2, hlen2, hkeys2, hbest2⟩ :=
            ih (runIteration st best e).1 (runIteration st best e).2.1
          refine ⟨Δ, ?_, ?_, ?_, ?_, ?_⟩
          · rw [show runIters (e :: rest) st best =
              runIters rest (runIteration st best e).1 (runIteration st best e).2.1 from rfl]
            rw [hpar2, hpar]
          · rw [show runIters (e :: rest) st best =
              runIters rest (runIteration st best e).1 (runIteration st best e).2.1 from rfl]
            rw [hres2, hres]
          · rw [List.countP_cons]
            rw [hlen2, hpar, hb]
            rfl
          · intro tr htr
            rw [← hpar]
            exact hkeys2 tr htr
          · rw [show runIters (e :: rest) st best =
              runIters rest (runIteration st best e).1 (runIteration st best e).2.1 from rfl]
            rw [hbest2, hbest]

/-- `C1` (code evaluation at the failing input): `run_binary` returns `Ok` even
when the simulator exits with a non-zero status, because both branches of its
final conditional return `Ok(())`; consequently the iteration is not abandoned:
the artifact is analysed, the optimizer is told and a Trial is appended. -/
theorem claim_c1 :
    run_binary (.exited false) = .ok () ∧
    (runIteration stAR 1000 iterExitFail).1.results = [([("a", 1), ("r", 1)], 5)] ∧
    (runIteration stAR 1000 iterExitFail).2.2.2 = some ([("a", 1), ("r", 1)], 5) := by
  refine ⟨rfl, ?_, ?_⟩ <;> decide

/-- `C2` (amended): when the artifact copy fails on a best-fitness improvement,
`run_analysis` panics at the copy unwrap — it is not logged as a warning and
the worker thread is lost, not just the iteration — while the tells, the Trial
append and the `BEST_FITNESS` store have already taken effect. -/
theorem claim_c2 (pm : List (String × ℚ)) (ps : List String) (best ft : ℚ)
    (env : AnalysisEnv) (hp : env.parseOk = true) (hfit : env.fitness = some ft)
    (htold : (tellAll env pm ft ps).2 = none) (hlt : ft < best)
    (hcp : env.copyOk = false) :
    (run_analysis pm ps best env).outcome = .panicked .copyPanic ∧
    (run_analysis pm ps best env).appended = some (pm, ft) ∧
    (run_analysis pm ps best env).best = ft ∧
    (run_analysis pm ps best env).warnings = [] := by
  rw [run_analysis_copy_panic pm ps best ft env hp hfit htold hlt hcp]
  exact ⟨rfl, rfl, rfl, rfl⟩

/-- `C2` counterexample: with every step succeeding except the artifact copy,
`run_analysis` ends in a panic at the copy site and logs no warning, so the
copy failure is neither logged as a warning nor contained to the iteration. -/
theorem claim_c2_counterexample :
    (run_analysis pmAR ["a", "r"] 1000 envCopyFail).outcome = .panicked .copyPanic ∧
    (run_analysis pmAR ["a", "r"] 1000 envCopyFail).warnings = [] := by
  refine ⟨?_, ?_⟩ <;> decide

/-- `C2` witness: the amended claim instantiated at the concrete copy-failure
environment. -/
theorem claim_c2_witness :
    envCopyFail.parseOk = true ∧ envCopyFail.fitness = some 5 ∧
      (tellAll envCopyFail pmAR 5 ["a", "r"]).2 = none ∧ (5 : ℚ) < 1000 ∧
      envCopyFail.copyOk = false ∧
      (run_analysis pmAR ["a", "r"] 1000 envCopyFail).outcome = .panicked .copyPanic ∧
      (run_analysis pmAR ["a", "r"] 1000 envCopyFail).best = 5 := by
  have h := claim_c2 pmAR ["a", "r"] 1000 5 envCopyFail rfl rfl (by decide) (by decide) rfl
  exact ⟨rfl, rfl, by decide, by decide, rfl, h.1, h.2.2.1⟩

/-- `C3` (amended): after a sequence of worker iterations applied to a fresh
state, the final `BEST_FITNESS` scalar equals the fold of `min` over the
recorded Trial fitnesses seeded with the initial sentinel `1000.0`; it equals
the minimum recorded fitness only when some Trial scored below the sentinel. -/
theorem claim_c3 (ps : List String) (envs : List IterEnv) :
    (runIters envs { params := ps, results := [] } 1000).2 =
      (runIters envs { params := ps, results := [] } 1000).1.results.foldl
        (fun b tr => min b tr.2) 1000 := by
  obtain ⟨Δ, _, hres, _, _, hbest⟩ := runIters_delta envs { params := ps, results := [] } 1000
  rw [hbest, hres]
  have hfun : (fun (b : ℚ) (tr : List (String × ℚ) × ℚ) => if tr.2 < b then tr.2 else b) =
      fun b tr => min b tr.2 := by
    funext b tr
    by_cases h : tr.2 < b
    · rw [if_pos h, min_eq_right h.le]
    · rw [if_neg h, min_eq_left (not_lt.mp h)]
  rw [hfun]
  rfl

/-- `C3` counterexample: a run with a single recorded Trial of fitness 2000
leaves the final scalar at the initial sentinel 1000, which is not the minimum
fitness (2000) among the recorded Trials. -/
theorem claim_c3_counterexample :
    (runIters [iterBig] stAR 1000).1.results = [([("a", 1), ("r", 1)], 2000)] ∧
    (runIters [iterBig] stAR 1000).2 = 1000 ∧ (1000 : ℚ) ≠ 2000 := by
  refine ⟨?_, ?_, by norm_num⟩ <;> decide

/-- `C8` (amended): in every iteration that records a Trial, the lock sections
are exactly the ask section followed by one section containing the tell of
every parameter with its asked value and then the Trial append — so the
tell-all and the append share a single lock acquisition and every ask has
exactly one matching tell; an iteration whose evaluation fails issues no tell
at all for its asks. -/
theorem claim_c8 (st : StateImpl) (best ft : ℚ) (env : IterEnv)
    (hnd : st.params.Nodup)
    (hsp : run_binary env.spawn = .ok ())
    (hp : env.analysis.parseOk = true)
    (hfit : env.analysis.fitness = some ft)
    (htell : ∀ n ∈ st.params, env.analysis.tellOk n = true) :
    (runIteration st best env).2.2.1 =
      [st.params.map (fun n => Event.askEv n (env.asked n)),
        (st.params.map (fun n => Event.tellEv n (env.asked n) ft)) ++
          [Event.appendEv (st.params.map (fun n => (n, env.asked n))) ft]] ∧
    ∀ n ∈ st.params,
      ((st.params.map (fun m => Event.tellEv m (env.asked m) ft)).count
        (Event.tellEv n (env.asked n) ft)) = 1 := by
  constructor
  · have htold := tellAll_ok env.analysis (st.params.map (fun m => (m, env.asked m))) ft
      env.asked st.params (fun n hn => lookup_map_self env.asked n st.params hn) htell
    have hsec : (runIteration st best env).2.2.1 =
        [st.params.map (fun n => Event.askEv n (env.asked n)),
          ((run_analysis (st.params.map (fun n => (n, env.asked n))) st.params best
            env.analysis).tells.map (fun x => Event.tellEv x.1 x.2.1 x.2.2)) ++
            (match (run_analysis (st.params.map (fun n => (n, env.asked n))) st.params best
              env.analysis).appended with
             | some tr => [Event.appendEv tr.1 tr.2]
             | none => [])] := by
      simp only [runIteration, hsp, hp, hfit, Option.isSome_some, Bool.and_self, if_true]
      rfl
    rw [hsec]
    have hs := run_analysis_success (st.params.map (fun n => (n, env.asked n))) st.params
      best ft env.analysis hp hfit (by rw [htold])
    rw [hs.2.1, hs.2.2.1, htold]
    rw [List.map_map]
    rfl
  · intro n hn
    have hinj : Function.Injective (fun m => Event.tellEv m (env.asked m) ft) := by
      intro x y hxy
      cases hxy
      rfl
    rw [List.count_map_of_injective st.params _ hinj n]
    exact List.count_eq_one_of_mem hnd hn

/-- `C8` counterexample: an iteration whose simulator fails to spawn performs
its asks but never issues any tell for them and records no Trial, refuting the
claim that every ask receives exactly one matching tell. -/
theorem claim_c8_counterexample :
    (runIteration stAR 1000 iterSpawnFail).2.2.1 =
      [[Event.askEv "a" 1, Event.askEv "r" 1]] ∧
    (∀ sec ∈ (runIteration stAR 1000 iterSpawnFail).2.2.1, ∀ e ∈ sec,
      ∀ v f : ℚ, e ≠ Event.tellEv "a" v f) ∧
    (runIteration stAR 1000 iterSpawnFail).2.2.2 = none := by
  have h := runIteration_spawnErr stAR 1000 iterSpawnFail rfl
  rw [h]
  refine ⟨rfl, ?_, rfl⟩
  intro sec hsec e he v f
  have hsec2 : sec = [Event.askEv "a" 1, Event.askEv "r" 1] := by
    simpa [stAR] using hsec
  subst hsec2
  rcases List.mem_cons.mp he with rfl | he2
  · simp
  · rcases List.mem_cons.mp he2 with rfl | he3
    · simp
    · cases he3

/-- `C8` witness: the amended claim instantiated at a fully successful concrete
iteration with parameters a and r. -/
theorem claim_c8_witness :
    stAR.params.Nodup ∧
    (runIteration stAR 1000 iterOk).2.2.1 =
      [stAR.params.map (fun n => Event.askEv n (iterOk.asked n)),
        (stAR.params.map (fun n => Event.tellEv n (iterOk.asked n) 5)) ++
          [Event.appendEv (stAR.params.map (fun n => (n, iterOk.asked n))) 5]] ∧
    ∀ n ∈ stAR.params,
      ((stAR.params.map (fun m => Event.tellEv m (iterOk.asked m) 5)).count
        (Event.tellEv n (iterOk.asked n) 5)) = 1 := by
  have h := claim_c8 stAR 1000 5 iterOk (by decide) rfl rfl rfl (fun n _ => rfl)
  exact ⟨by decide, h.1, h.2⟩

/-- `C9`: starting from a fresh state, the Trial list after any sequence of
iterations has exactly one entry per successful iteration, and every recorded
assignment lists exactly the declared parameter names, in order, with one value
each. -/
theorem claim_c9 (ps : List String) (envs : List IterEnv) (best : ℚ) :
    (runIters envs { params := ps, results := [] } best).1.results.length =
      envs.countP (fun e => iterSucceeds ps e) ∧
    ∀ tr ∈ (runIters envs { params := ps, results := [] } best).1.results,
      tr.1.map Prod.fst = ps := by
  obtain ⟨Δ, _, hres, hlen, hkeys, _⟩ :=
    runIters_delta envs { params := ps, results := [] } best
  constructor
  · rw [hres, List.nil_append]
    exact hlen
  · intro tr htr
    rw [hres, List.nil_append] at htr
    exact hkeys tr htr

/-- `C3` witness: the amended claim instantiated at a concrete one-iteration
run. -/
theorem claim_c3_witness :
    (runIters [iterOk] { params := ["a", "r"], results := [] } 1000).2 =
      (runIters [iterOk] { params := ["a", "r"], results := [] } 1000).1.results.foldl
        (fun b tr => min b tr.2) 1000 :=
  claim_c3 ["a", "r"] [iterOk]

/-- `C9` witness: a concrete two-iteration run (one success, one spawn failure)
records exactly one Trial, whose assignment holds exactly the declared
parameter names. -/
theorem claim_c9_witness :
    (runIters [iterOk, iterSpawnFail] { params := ["a", "r"], results := [] }
      1000).1.results.length =
      [iterOk, iterSpawnFail].countP (fun e => iterSucceeds ["a", "r"] e) ∧
    (runIters [iterOk, iterSpawnFail] { params := ["a", "r"], results := [] }
      1000).1.results = [([("a", 1), ("r", 1)], 5)] := by
  refine ⟨(claim_c9 ["a", "r"] [iterOk, iterSpawnFail] 1000).1, ?_⟩
  decide
